import Mathlib

/-!
Verification of the semantic-locator layer of the postedworkers-automation
repository, shallowly embedded in Lean.

The browser is the external environment: every Playwright query the source
performs (getByLabel, getByRole, CSS locators, element state reads) is a
field of an explicit page-model structure, and every source function is a
pure state-passing function over that model.  Element actions that the
source awaits are modelled as state updates; a thrown Playwright error is
an explicit error value.  Strategy chains built from try/catch in the
source become ordered alternation on error values, and the list of
strategies whose try-block was entered is returned as an explicit trace so
that chain short-circuiting is observable.
-/

/-- Typed failures of the locator layer (thrown Playwright errors). -/
inductive ExecError where
  | notFound
  | notVisible
  | notActionable
  | verificationFailed
  | timeout
deriving DecidableEq, Repr

/-- Names of the resolution strategies appearing in the source chains. -/
inductive Strategy where
  | accessibleRole
  | accessibleLabel
  | componentLibrary
  | rawDOM
deriving DecidableEq, Repr

/-- Index lookup on lists of DOM elements (structural, so that page models
evaluate by rfl). -/
def nth {α : Type} : List α → Nat → Option α
  | [], _ => none
  | a :: _, 0 => some a
  | _ :: xs, i + 1 => nth xs i

/-- List helper: updating index i makes nth i return the new element. -/
theorem nthSetSelf {α : Type} :
    ∀ (xs : List α) (i : Nat) (a b : α),
      nth xs i = some b → nth (xs.set i a) i = some a := by
  intro xs
  induction xs with
  | nil => intro i a b h; simp [nth] at h
  | cons x xs ih =>
    intro i a b h
    cases i with
    | zero => simp [List.set, nth]
    | succ j => simpa [List.set, nth] using ih j a b (by simpa [nth] using h)

/-- List helper: updating index i leaves nth at other indices unchanged. -/
theorem nthSetOther {α : Type} :
    ∀ (xs : List α) (i j : Nat) (a : α),
      i ≠ j → nth (xs.set i a) j = nth xs j := by
  intro xs
  induction xs with
  | nil => intro i j a _; simp [List.set]
  | cons x xs ih =>
    intro i j a hij
    cases i with
    | zero =>
      cases j with
      | zero => exact absurd rfl hij
      | succ k => simp [List.set, nth]
    | succ i' =>
      cases j with
      | zero => simp [List.set, nth]
      | succ k => simpa [List.set, nth] using ih i' k a (by omega)

/-- List helper: writing back the element already stored is a no-op. -/
theorem nthSetEqSelf {α : Type} :
    ∀ (xs : List α) (i : Nat) (a : α),
      nth xs i = some a → xs.set i a = xs := by
  intro xs
  induction xs with
  | nil => intro i a h; simp [nth] at h
  | cons x xs ih =>
    intro i a h
    cases i with
    | zero =>
      simp [nth] at h
      simp [List.set, h]
    | succ j =>
      simp [nth] at h
      simp [List.set, ih j a h]

/-- List helper: a set cannot make a missing index present. -/
theorem nthSetNone {α : Type} :
    ∀ (xs : List α) (i j : Nat) (a : α),
      nth xs j = none → nth (xs.set i a) j = none := by
  intro xs
  induction xs with
  | nil => intro i j a h; simpa [List.set] using h
  | cons x xs ih =>
    intro i j a h
    cases i with
    | zero =>
      cases j with
      | zero => simp [nth] at h
      | succ k => simpa [List.set, nth] using h
    | succ i' =>
      cases j with
      | zero => simp [nth] at h
      | succ k => simpa [List.set, nth] using ih i' k a (by simpa [nth] using h)

/-!
## Text fields: `setInputValue` and `fillTextByLabel` (src/utils/elements.ts)

A `InputField` is one input/textarea control.  `bulkFill v` is the value the
control holds after the programmatic `input.fill(v)` (a control that
rejects bulk-set returns something other than `v`); `typeEffect cur v` is
the value it holds after `pressSequentially(v)` starting from content
`cur`.  `clickThrows` / `fillThrows` model the focus click or the fill
call timing out; `tabThrows` models the trailing `press Tab` failing.
-/

structure InputField where
  value : String
  visible : Bool
  clickThrows : Bool
  fillThrows : Bool
  bulkFill : String → String
  typeEffect : String → String → String
  tabThrows : Bool

/-- Value after the fast path `input.fill(value)`. -/
def fastFillValue (f : InputField) (value : String) : String :=
  f.bulkFill value

/-- Value after the slow path: `input.fill(the empty string)` then
`input.pressSequentially(value)`. -/
def slowFillValue (f : InputField) (value : String) : String :=
  f.typeEffect (f.bulkFill "") value

/-- The read-back check of `setInputValue`: keep the fast-path value when it
matches, otherwise clear and re-enter keystroke-by-keystroke. -/
def finalFillValue (f : InputField) (value : String) : String :=
  if fastFillValue f value = value then fastFillValue f value
  else slowFillValue f value

/-- Result of `input.press Tab` on the field. -/
def pressTabResult (f : InputField) : Option ExecError :=
  if f.tabThrows then some ExecError.timeout else none

/-- Models `.catch(() => \x7b\x7d)`: whatever the press did, the error is
discarded. -/
def swallow (_ : Option ExecError) : Option ExecError :=
  none

/-- `setInputValue(input, value)`: click to focus, bulk fill, read the value
back, fall back to clear-and-type when it differs, assert the final value
equals `value` (throwing `verificationFailed` otherwise), then press Tab
with the failure swallowed.  Returns the final field state and the thrown
error, if any. -/
def setInputValue (f : InputField) (value : String) : InputField × Option ExecError :=
  if f.clickThrows then (f, some ExecError.notActionable)
  else if f.fillThrows then (f, some ExecError.notActionable)
  else if finalFillValue f value = value then
    ({ f with value := finalFillValue f value },
      swallow (pressTabResult { f with value := finalFillValue f value }))
  else ({ f with value := finalFillValue f value }, some ExecError.verificationFailed)

/-- On a normal return of `setInputValue`, the field is the input field with
its value replaced by exactly the requested value. -/
theorem setInputValue_ok (f : InputField) (v : String) (f' : InputField)
    (h : setInputValue f v = (f', none)) : f' = { f with value := v } := by
  obtain ⟨val, vis, ct, ft, bf, te, tt⟩ := f
  unfold setInputValue finalFillValue fastFillValue slowFillValue at h
  by_cases hc : ct
  · simp [hc] at h
  · by_cases hf : ft
    · simp [hc, hf] at h
    · by_cases hb : bf v = v
      · simp [hc, hf, hb, swallow] at h
        simp [← h, hc, hf]
      · by_cases hs : te (bf "") v = v
        · simp [hc, hf, hb, hs, swallow] at h
          simp [← h, hc, hf]
        · simp [hc, hf, hb, hs] at h

/-- The thrown-or-not outcome of `setInputValue` does not depend on the
field value the control held before the call. -/
theorem setInputValue_snd_value_indep (f : InputField) (v w : String) :
    (setInputValue { f with value := w } v).2 = (setInputValue f v).2 := by
  obtain ⟨val, vis, ct, ft, bf, te, tt⟩ := f
  unfold setInputValue finalFillValue fastFillValue slowFillValue
  by_cases hc : ct
  · simp [hc]
  · by_cases hf : ft
    · simp [hc, hf]
    · by_cases hb : bf v = v
      · simp [hc, hf, hb]
      · simp [hc, hf, hb]

/-- The thrown-or-not outcome of `setInputValue` does not depend on whether
the trailing focus-shift Tab press fails: that failure is swallowed. -/
theorem setInputValue_snd_tab_indep (f : InputField) (v : String) (b : Bool) :
    (setInputValue { f with tabThrows := b } v).2 = (setInputValue f v).2 := by
  obtain ⟨val, vis, ct, ft, bf, te, tt⟩ := f
  unfold setInputValue finalFillValue fastFillValue slowFillValue
  by_cases hc : ct
  · simp [hc]
  · by_cases hf : ft
    · simp [hc, hf]
    · by_cases hb : bf v = v
      · simp [hc, hf, hb, swallow]
      · by_cases hs : te (bf "") v = v
        · simp [hc, hf, hb, hs, swallow]
        · simp [hc, hf, hb, hs]

/-- A successful `setInputValue` is a fixpoint: re-running it on the field
it returned succeeds again and leaves the field unchanged. -/
theorem setInputValue_ok_fix (f : InputField) (v : String) (f' : InputField)
    (h : setInputValue f v = (f', none)) :
    setInputValue f' v = (f', none) := by
  have hf' := setInputValue_ok f v f' h
  subst hf'
  obtain ⟨val, vis, ct, ft, bf, te, tt⟩ := f
  unfold setInputValue finalFillValue fastFillValue slowFillValue at h ⊢
  by_cases hc : ct
  · simp [hc] at h
  · by_cases hfl : ft
    · simp [hc, hfl] at h
    · by_cases hb : bf v = v
      · simp [hc, hfl, hb, swallow]
      · by_cases hs : te (bf "") v = v
        · simp [hc, hfl, hb, hs, swallow]
        · simp [hc, hfl, hb, hs] at h

/-- A failed `setInputValue` is a fixpoint: re-running it on the field state
it left behind fails with the same error and the same state. -/
theorem setInputValue_err_fix (f : InputField) (v : String) (f' : InputField)
    (e : ExecError) (h : setInputValue f v = (f', some e)) :
    setInputValue f' v = (f', some e) := by
  obtain ⟨val, vis, ct, ft, bf, te, tt⟩ := f
  unfold setInputValue finalFillValue fastFillValue slowFillValue at h ⊢
  by_cases hc : ct
  · simp [hc] at h
    simp [← h.1, hc, h.2]
  · by_cases hfl : ft
    · simp [hc, hfl] at h
      simp [← h.1, hc, hfl, h.2]
    · by_cases hb : bf v = v
      · simp [hc, hfl, hb, swallow] at h
      · by_cases hs : te (bf "") v = v
        · simp [hc, hfl, hb, hs, swallow] at h
        · simp [hc, hfl, hb, hs] at h
          simp [← h.1, hc, hfl, hb, hs, h.2]

/-- `setInputValue` changes nothing about the field except its value. -/
theorem setInputValue_shape (f : InputField) (v : String) :
    (setInputValue f v).1 = { f with value := ((setInputValue f v).1).value } := by
  obtain ⟨val, vis, ct, ft, bf, te, tt⟩ := f
  unfold setInputValue finalFillValue fastFillValue slowFillValue
  by_cases hc : ct
  · simp [hc]
  · by_cases hfl : ft
    · simp [hc, hfl]
    · by_cases hb : bf v = v
      · simp [hc, hfl, hb]
      · by_cases hs : te (bf "") v = v
        · simp [hc, hfl, hb, hs]
        · simp [hc, hfl, hb, hs]

/-!
## Page model for `fillTextByLabel`

`byLabel` is `page.getByLabel(labelText, exact)` resolving to the index of
a unique field (none when zero or several elements match, which makes the
subsequent visibility assertion throw).  `rawLabels` lists, in DOM order,
the label elements matched by the `label:has-text(...)` locator, of which
the source takes `.first()`.  `byId` is the `#id` locator.
-/

structure TextLabel where
  visible : Bool
  forAttr : Option String
  parentFirstInput : Option Nat

structure TextPage where
  fields : List InputField
  byLabel : String → Option Nat
  rawLabels : String → List TextLabel
  byId : String → Option Nat

/-- Replace the field stored at index i. -/
def setFieldAt (pg : TextPage) (i : Nat) (f : InputField) : TextPage :=
  { pg with fields := pg.fields.set i f }

/-- Shared tail of both fill strategies: assert the resolved input is
visible within the short bound, then run `setInputValue` on it. -/
def fillResolved (pg : TextPage) (i : Nat) (value : String) :
    TextPage × Except ExecError Nat :=
  match nth pg.fields i with
  | none => (pg, Except.error ExecError.notFound)
  | some f =>
    if f.visible then
      match setInputValue f value with
      | (f1, none) => (setFieldAt pg i f1, Except.ok i)
      | (f1, some e) => (setFieldAt pg i f1, Except.error e)
    else (pg, Except.error ExecError.notVisible)

/-- Strategy 1 of `fillTextByLabel`: `page.getByLabel(labelText, exact)`,
visibility assertion, then `setInputValue`. -/
def fillStrategy1 (pg : TextPage) (labelText value : String) :
    TextPage × Except ExecError Nat :=
  match pg.byLabel labelText with
  | none => (pg, Except.error ExecError.notFound)
  | some i => fillResolved pg i value

/-- Target input of the raw-DOM strategy: the element whose id equals the
label's `for` attribute when that attribute is present, otherwise the first
input/textarea descendant of the label's parent. -/
def rawTargetOf (pg : TextPage) (lab : TextLabel) : Option Nat :=
  match lab.forAttr with
  | some attr => pg.byId attr
  | none => lab.parentFirstInput

/-- Strategy 2 of `fillTextByLabel` (raw DOM): take the first
`label:has-text` match, wait for it to be visible, resolve its target
input via `rawTargetOf`, assert the input visible, then `setInputValue`. -/
def fillStrategy2 (pg : TextPage) (labelText value : String) :
    TextPage × Except ExecError Nat :=
  match (pg.rawLabels labelText).head? with
  | none => (pg, Except.error ExecError.notFound)
  | some lab =>
    if lab.visible then
      match rawTargetOf pg lab with
      | none => (pg, Except.error ExecError.notFound)
      | some i => fillResolved pg i value
    else (pg, Except.error ExecError.notVisible)

/-- `fillTextByLabel(page, labelText, value)`: try the accessible-label
strategy; on any thrown error fall back to the raw-DOM strategy.  Returns
the final page, the index of the field acted on (or the error), and the
trace of strategies whose try-block was entered. -/
def fillTextByLabel (pg : TextPage) (labelText value : String) :
    TextPage × Except ExecError Nat × List Strategy :=
  match fillStrategy1 pg labelText value with
  | (pg1, Except.ok i) => (pg1, Except.ok i, [Strategy.accessibleLabel])
  | (pg1, Except.error _) =>
    let r := fillStrategy2 pg1 labelText value
    (r.1, r.2, [Strategy.accessibleLabel, Strategy.rawDOM])


/-- A successful `fillResolved` acted at the requested index on a visible
field, its `setInputValue` succeeded, and it wrote exactly the requested
value there. -/
theorem fillResolved_ok (pg : TextPage) (i : Nat) (v : String)
    (pg' : TextPage) (j : Nat)
    (h : fillResolved pg i v = (pg', Except.ok j)) :
    j = i ∧ ∃ f, nth pg.fields i = some f ∧ f.visible = true ∧
      setInputValue f v = ({ f with value := v }, none) ∧
      pg' = setFieldAt pg i { f with value := v } := by
  unfold fillResolved at h
  cases hget : nth pg.fields i with
  | none => simp [hget] at h
  | some f =>
    simp only [hget] at h
    by_cases hvis : f.visible
    · simp only [hvis, if_true] at h
      cases hset : setInputValue f v with
      | mk f1 err =>
        cases err with
        | none =>
          simp [hset] at h
          have hf1 := setInputValue_ok f v f1 hset
          subst hf1
          exact ⟨h.2.symm, f, rfl, hvis, hset, h.1.symm⟩
        | some e => simp [hset] at h
    · simp [hvis] at h

/-- A failed `fillResolved` either found nothing at the index, found an
invisible field, or ran `setInputValue` and it threw. -/
theorem fillResolved_err (pg : TextPage) (i : Nat) (v : String)
    (pg' : TextPage) (e : ExecError)
    (h : fillResolved pg i v = (pg', Except.error e)) :
    (nth pg.fields i = none ∧ pg' = pg ∧ e = ExecError.notFound) ∨
    (∃ f, nth pg.fields i = some f ∧ f.visible = false ∧ pg' = pg ∧
      e = ExecError.notVisible) ∨
    (∃ f f1, nth pg.fields i = some f ∧ f.visible = true ∧
      setInputValue f v = (f1, some e) ∧ pg' = setFieldAt pg i f1) := by
  unfold fillResolved at h
  cases hget : nth pg.fields i with
  | none =>
    simp [hget] at h
    exact Or.inl ⟨rfl, h.1.symm, h.2.symm⟩
  | some f =>
    simp only [hget] at h
    by_cases hvis : f.visible
    · simp only [hvis, if_true] at h
      cases hset : setInputValue f v with
      | mk f1 err =>
        cases err with
        | none => simp [hset] at h
        | some e1 =>
          simp [hset] at h
          exact Or.inr (Or.inr ⟨f, f1, rfl, hvis, by rw [hset, h.2], h.1.symm⟩)
    · simp [hvis] at h
      exact Or.inr (Or.inl ⟨f, rfl, by simpa using hvis, h.1.symm, h.2.symm⟩)

/-- On a normal return of `fillResolved`, the field at the acted index holds
exactly the requested value. -/
theorem fillResolved_ok_value (pg : TextPage) (i : Nat) (v : String)
    (pg' : TextPage) (j : Nat)
    (h : fillResolved pg i v = (pg', Except.ok j)) :
    ∃ f, nth pg'.fields j = some f ∧ f.value = v := by
  obtain ⟨hj, f, hget, hvis, hsiv, hpg⟩ := fillResolved_ok pg i v pg' j h
  refine ⟨{ f with value := v }, ?_, rfl⟩
  rw [hpg, hj]
  exact nthSetSelf pg.fields i _ f hget

/-- `fillResolved` never changes the page queries, only the fields list. -/
theorem fillResolved_queries (pg : TextPage) (i : Nat) (v : String) :
    (fillResolved pg i v).1.byLabel = pg.byLabel ∧
    (fillResolved pg i v).1.rawLabels = pg.rawLabels ∧
    (fillResolved pg i v).1.byId = pg.byId := by
  unfold fillResolved
  cases hget : nth pg.fields i with
  | none => exact ⟨rfl, rfl, rfl⟩
  | some f =>
    by_cases hvis : f.visible
    · simp only [hvis, if_true]
      cases hset : setInputValue f v with
      | mk f1 err => cases err with
        | none => exact ⟨rfl, rfl, rfl⟩
        | some e => exact ⟨rfl, rfl, rfl⟩
    · simp [hvis]

/-- The page after `fillResolved` is the original page or the original page
with one field replaced. -/
theorem fillResolved_shape (pg : TextPage) (i : Nat) (v : String) :
    (fillResolved pg i v).1 = pg ∨
    ∃ f1, (fillResolved pg i v).1 = setFieldAt pg i f1 := by
  unfold fillResolved
  cases hget : nth pg.fields i with
  | none => exact Or.inl rfl
  | some f =>
    by_cases hvis : f.visible
    · simp only [hvis, if_true]
      cases hset : setInputValue f v with
      | mk f1 err => cases err with
        | none => exact Or.inr ⟨f1, rfl⟩
        | some e => exact Or.inr ⟨f1, rfl⟩
    · simp [hvis]

/-- `fillResolved` leaves every other index of the fields list unchanged. -/
theorem fillResolved_nth_other (pg : TextPage) (i : Nat) (v : String)
    (j : Nat) (hij : j ≠ i) :
    nth ((fillResolved pg i v).1).fields j = nth pg.fields j := by
  rcases fillResolved_shape pg i v with hsh | ⟨f1, hsh⟩
  · rw [hsh]
  · rw [hsh]
    unfold setFieldAt
    exact nthSetOther pg.fields i j f1 (fun hh => hij hh.symm)

/-- A successful `fillResolved` is a fixpoint: running it again on the page
it produced returns the same page and the same index. -/
theorem fillResolved_ok_fix (pg : TextPage) (i : Nat) (v : String)
    (pg' : TextPage) (j : Nat)
    (h : fillResolved pg i v = (pg', Except.ok j)) :
    fillResolved pg' i v = (pg', Except.ok j) := by
  obtain ⟨hj, f, hget, hvis, hsiv, hpg⟩ := fillResolved_ok pg i v pg' j h
  obtain ⟨fval, fvis, fct, fft, fbf, fte, ftt⟩ := f
  replace hvis : fvis = true := hvis
  subst hvis
  have hget' : nth pg'.fields i =
      some ⟨v, true, fct, fft, fbf, fte, ftt⟩ := by
    rw [hpg]
    exact nthSetSelf pg.fields i _ _ hget
  have hsiv' : setInputValue (⟨v, true, fct, fft, fbf, fte, ftt⟩ : InputField) v =
      (⟨v, true, fct, fft, fbf, fte, ftt⟩, none) :=
    setInputValue_ok_fix _ v _ hsiv
  have hfix : setFieldAt pg' i ⟨v, true, fct, fft, fbf, fte, ftt⟩ = pg' := by
    unfold setFieldAt
    rw [nthSetEqSelf pg'.fields i _ hget']
  unfold fillResolved
  simp only [hget', hsiv', hfix, hj]
  simp

/-- A failed `fillResolved` is a fixpoint: running it again on the page it
left behind fails identically, leaving the page unchanged. -/
theorem fillResolved_err_fix (pg : TextPage) (i : Nat) (v : String)
    (pg' : TextPage) (e : ExecError)
    (h : fillResolved pg i v = (pg', Except.error e)) :
    fillResolved pg' i v = (pg', Except.error e) := by
  rcases fillResolved_err pg i v pg' e h with
    ⟨hget, hpg, he⟩ | ⟨f, hget, hvis, hpg, he⟩ | ⟨f, f1, hget, hvis, hsiv, hpg⟩
  · subst hpg; subst he
    unfold fillResolved
    rw [hget]
  · subst hpg; subst he
    unfold fillResolved
    rw [hget]
    simp [hvis]
  · obtain ⟨fval, fvis, fct, fft, fbf, fte, ftt⟩ := f
    replace hvis : fvis = true := hvis
    subst hvis
    have hshape := setInputValue_shape ⟨fval, true, fct, fft, fbf, fte, ftt⟩ v
    rw [hsiv] at hshape
    simp only at hshape
    have hget' : nth pg'.fields i = some f1 := by
      rw [hpg]
      exact nthSetSelf pg.fields i _ _ hget
    have hvis1 : f1.visible = true := by rw [hshape]
    have hsiv1 : setInputValue f1 v = (f1, some e) :=
      setInputValue_err_fix _ v _ e hsiv
    have hfix : setFieldAt pg' i f1 = pg' := by
      unfold setFieldAt
      rw [nthSetEqSelf pg'.fields i _ hget']
    unfold fillResolved
    rw [hget']
    simp only [hvis1, if_true, hsiv1, hfix]

/-- A successful strategy 1 resolved the label to the acted index and ran a
successful `fillResolved` there. -/
theorem fillStrategy1_ok (pg : TextPage) (l v : String) (pg' : TextPage)
    (i : Nat) (h : fillStrategy1 pg l v = (pg', Except.ok i)) :
    pg.byLabel l = some i ∧ fillResolved pg i v = (pg', Except.ok i) := by
  unfold fillStrategy1 at h
  cases hq : pg.byLabel l with
  | none => simp [hq] at h
  | some k =>
    rw [hq] at h
    have hk := (fillResolved_ok pg k v pg' i h).1
    rw [hk] at h ⊢
    exact ⟨rfl, h⟩

/-- A successful strategy 2 took the first raw label match, found it
visible, resolved its target input, and ran a successful `fillResolved`. -/
theorem fillStrategy2_ok (pg : TextPage) (l v : String) (pg' : TextPage)
    (i : Nat) (h : fillStrategy2 pg l v = (pg', Except.ok i)) :
    ∃ lab, (pg.rawLabels l).head? = some lab ∧ lab.visible = true ∧
      rawTargetOf pg lab = some i ∧
      fillResolved pg i v = (pg', Except.ok i) := by
  unfold fillStrategy2 at h
  cases hhd : (pg.rawLabels l).head? with
  | none => simp [hhd] at h
  | some lab =>
    rw [hhd] at h
    by_cases hvis : lab.visible
    · simp only [hvis, if_true] at h
      cases htg : rawTargetOf pg lab with
      | none => simp [htg] at h
      | some k =>
        rw [htg] at h
        have hk := (fillResolved_ok pg k v pg' i h).1
        rw [hk] at h ⊢
        exact ⟨lab, rfl, hvis, htg, h⟩
    · simp [hvis] at h

/-- Strategy 1 preserves the page queries. -/
theorem fillStrategy1_queries (pg : TextPage) (l v : String) :
    (fillStrategy1 pg l v).1.byLabel = pg.byLabel ∧
    (fillStrategy1 pg l v).1.rawLabels = pg.rawLabels ∧
    (fillStrategy1 pg l v).1.byId = pg.byId := by
  unfold fillStrategy1
  cases hq : pg.byLabel l with
  | none => exact ⟨rfl, rfl, rfl⟩
  | some k => exact fillResolved_queries pg k v

/-- Strategy 2 preserves the page queries. -/
theorem fillStrategy2_queries (pg : TextPage) (l v : String) :
    (fillStrategy2 pg l v).1.byLabel = pg.byLabel ∧
    (fillStrategy2 pg l v).1.rawLabels = pg.rawLabels ∧
    (fillStrategy2 pg l v).1.byId = pg.byId := by
  unfold fillStrategy2
  cases hhd : (pg.rawLabels l).head? with
  | none => exact ⟨rfl, rfl, rfl⟩
  | some lab =>
    by_cases hvis : lab.visible
    · simp only [hvis, if_true]
      cases htg : rawTargetOf pg lab with
      | none => exact ⟨rfl, rfl, rfl⟩
      | some k => exact fillResolved_queries pg k v
    · simp [hvis]

/-- A successful strategy 1 is a fixpoint. -/
theorem fillStrategy1_ok_fix (pg : TextPage) (l v : String) (pg' : TextPage)
    (i : Nat) (h : fillStrategy1 pg l v = (pg', Except.ok i)) :
    fillStrategy1 pg' l v = (pg', Except.ok i) := by
  obtain ⟨hq, hres⟩ := fillStrategy1_ok pg l v pg' i h
  have hq' : pg'.byLabel = pg.byLabel := by
    have := (fillResolved_queries pg i v).1
    rw [hres] at this
    exact this
  unfold fillStrategy1
  rw [hq', hq]
  exact fillResolved_ok_fix pg i v pg' i hres

/-- A successful strategy 2 is a fixpoint. -/
theorem fillStrategy2_ok_fix (pg : TextPage) (l v : String) (pg' : TextPage)
    (i : Nat) (h : fillStrategy2 pg l v = (pg', Except.ok i)) :
    fillStrategy2 pg' l v = (pg', Except.ok i) := by
  obtain ⟨lab, hhd, hvis, htg, hres⟩ := fillStrategy2_ok pg l v pg' i h
  have hqs := fillResolved_queries pg i v
  rw [hres] at hqs
  unfold fillStrategy2
  rw [hqs.2.1, hhd]
  simp only [hvis, if_true]
  have htg' : rawTargetOf pg' lab = some i := by
    unfold rawTargetOf at htg ⊢
    cases hfa : lab.forAttr with
    | none => rw [hfa] at htg; exact htg
    | some attr => rw [hfa] at htg; rw [hqs.2.2]; exact htg
  rw [htg']
  exact fillResolved_ok_fix pg i v pg' i hres

/-- When strategy 1 fails and strategy 2 then succeeds, re-running
strategy 1 on the final page fails again without changing the page. -/
theorem fillStrategy1_err_stable (pg pg1 pg' : TextPage) (l v : String)
    (i : Nat) (e : ExecError)
    (h1 : fillStrategy1 pg l v = (pg1, Except.error e))
    (h2 : fillStrategy2 pg1 l v = (pg', Except.ok i)) :
    ∃ e2, fillStrategy1 pg' l v = (pg', Except.error e2) := by
  obtain ⟨lab, hhd, hvisl, htg, hres2⟩ := fillStrategy2_ok pg1 l v pg' i h2
  have hq1 := fillStrategy1_queries pg l v
  rw [h1] at hq1
  have hq2 := fillResolved_queries pg1 i v
  rw [hres2] at hq2
  obtain ⟨hres2j, fi, hgetfi, hvisfi, hsivfi, hpg'⟩ :=
    fillResolved_ok pg1 i v pg' i hres2
  unfold fillStrategy1 at h1 ⊢
  rw [hq2.1, hq1.1]
  cases hq : pg.byLabel l with
  | none =>
    exact ⟨ExecError.notFound, rfl⟩
  | some k =>
    rw [hq] at h1
    rcases fillResolved_err pg k v pg1 e h1 with
      ⟨hget, hpg1, he⟩ | ⟨f, hget, hfvis, hpg1, he⟩ |
      ⟨f, f1, hget, hfvis, hsiv, hpg1⟩
    · have hnone : nth pg'.fields k = none := by
        rw [hpg']
        unfold setFieldAt
        apply nthSetNone
        rw [hpg1]
        exact hget
      have hmain : fillResolved pg' k v = (pg', Except.error ExecError.notFound) := by
        unfold fillResolved
        rw [hnone]
      exact ⟨ExecError.notFound, hmain⟩
    · have hki : k ≠ i := by
        intro hk
        rw [hpg1, ← hk] at hgetfi
        rw [hget] at hgetfi
        injection hgetfi with hfi
        rw [← hfi] at hvisfi
        rw [hfvis] at hvisfi
        simp at hvisfi
      have hget' : nth pg'.fields k = some f := by
        rw [hpg']
        unfold setFieldAt
        rw [nthSetOther pg1.fields i k _ (fun hh => hki hh.symm)]
        rw [hpg1]
        exact hget
      have hmain : fillResolved pg' k v = (pg', Except.error ExecError.notVisible) := by
        unfold fillResolved
        rw [hget']
        simp [hfvis]
      exact ⟨ExecError.notVisible, hmain⟩
    · have hget1 : nth pg1.fields k = some f1 := by
        rw [hpg1]
        unfold setFieldAt
        exact nthSetSelf pg.fields k _ _ hget
      have hf1shape := setInputValue_shape f v
      rw [hsiv] at hf1shape
      simp only at hf1shape
      have hki : k ≠ i := by
        intro hk
        rw [← hk] at hgetfi
        rw [hget1] at hgetfi
        injection hgetfi with hfi
        rw [← hfi] at hsivfi
        have hbad : (setInputValue f1 v).2 = some e := by
          conv_lhs => rw [hf1shape]
          rw [setInputValue_snd_value_indep f v (InputField.value f1), hsiv]
        rw [hsivfi] at hbad
        simp at hbad
      have hget' : nth pg'.fields k = some f1 := by
        rw [hpg']
        unfold setFieldAt
        rw [nthSetOther pg1.fields i k _ (fun hh => hki hh.symm)]
        exact hget1
      have hvis1 : f1.visible = true := by
        rw [hf1shape]
        exact hfvis
      have hsiv1 : setInputValue f1 v = (f1, some e) :=
        setInputValue_err_fix f v f1 e hsiv
      have hfixp : setFieldAt pg' k f1 = pg' := by
        unfold setFieldAt
        rw [nthSetEqSelf pg'.fields k _ hget']
      have hmain : fillResolved pg' k v = (pg', Except.error e) := by
        unfold fillResolved
        rw [hget']
        simp only [hvis1, if_true, hsiv1, hfixp]
      exact ⟨e, hmain⟩

/-- If the accessible-label strategy succeeds, `fillTextByLabel` commits to
it: the raw-DOM strategy is never entered and the trace is the singleton. -/
theorem fillTextByLabel_short_circuit (pg : TextPage) (l v : String)
    (pg1 : TextPage) (i : Nat)
    (h : fillStrategy1 pg l v = (pg1, Except.ok i)) :
    fillTextByLabel pg l v = (pg1, Except.ok i, [Strategy.accessibleLabel]) := by
  unfold fillTextByLabel
  rw [h]

/-- The trace of `fillTextByLabel` is always one of the two prefixes of the
two-strategy chain: it never contains a component-library strategy. -/
theorem fillTextByLabel_trace (pg : TextPage) (l v : String) :
    (fillTextByLabel pg l v).2.2 = [Strategy.accessibleLabel] ∨
    (fillTextByLabel pg l v).2.2 =
      [Strategy.accessibleLabel, Strategy.rawDOM] := by
  unfold fillTextByLabel
  cases hs1 : fillStrategy1 pg l v with
  | mk pg1 r1 =>
    cases r1 with
    | ok k => exact Or.inl rfl
    | error e => exact Or.inr rfl

/-- On a normal return of `fillTextByLabel`, the field it acted on holds
exactly the requested value. -/
theorem fillTextByLabel_ok_value (pg : TextPage) (l v : String)
    (pg' : TextPage) (i : Nat) (tr : List Strategy)
    (h : fillTextByLabel pg l v = (pg', Except.ok i, tr)) :
    ∃ f, nth pg'.fields i = some f ∧ f.value = v := by
  unfold fillTextByLabel at h
  cases hs1 : fillStrategy1 pg l v with
  | mk pg1 r1 =>
    rw [hs1] at h
    cases r1 with
    | ok k =>
      simp at h
      obtain ⟨hpg, hk, htr⟩ := h
      rw [hpg, hk] at hs1
      have := (fillStrategy1_ok pg l v pg' i hs1).2
      exact fillResolved_ok_value pg i v pg' i this
    | error e =>
      simp at h
      have h2 : fillStrategy2 pg1 l v = (pg', Except.ok i) := by
        have := Prod.mk.eta (p := fillStrategy2 pg1 l v)
        rw [← this, h.1, h.2.1]
      obtain ⟨lab, hhd, hvis, htg, hres⟩ := fillStrategy2_ok pg1 l v pg' i h2
      exact fillResolved_ok_value pg1 i v pg' i hres

/-- A normal return of `fillTextByLabel` is a fixpoint: repeating the call
with the same label and value returns the identical page, index and trace. -/
theorem fillTextByLabel_ok_fix (pg : TextPage) (l v : String)
    (pg' : TextPage) (i : Nat) (tr : List Strategy)
    (h : fillTextByLabel pg l v = (pg', Except.ok i, tr)) :
    fillTextByLabel pg' l v = (pg', Except.ok i, tr) := by
  unfold fillTextByLabel at h
  cases hs1 : fillStrategy1 pg l v with
  | mk pg1 r1 =>
    rw [hs1] at h
    cases r1 with
    | ok k =>
      simp at h
      obtain ⟨hpg, hk, htr⟩ := h
      rw [hpg, hk] at hs1
      have hfix := fillStrategy1_ok_fix pg l v pg' i hs1
      unfold fillTextByLabel
      rw [hfix, ← htr]
    | error e =>
      simp at h
      have h2 : fillStrategy2 pg1 l v = (pg', Except.ok i) := by
        have := Prod.mk.eta (p := fillStrategy2 pg1 l v)
        rw [← this, h.1, h.2.1]
      obtain ⟨e2, hs1'⟩ := fillStrategy1_err_stable pg pg1 pg' l v i e hs1 h2
      have h2' := fillStrategy2_ok_fix pg1 l v pg' i h2
      unfold fillTextByLabel
      rw [hs1']
      show ((fillStrategy2 pg' l v).1, (fillStrategy2 pg' l v).2,
        [Strategy.accessibleLabel, Strategy.rawDOM]) = (pg', Except.ok i, tr)
      rw [h2', ← h.2.2]

/-- When `fillTextByLabel` succeeds through the raw-DOM strategy, the label
used is the first raw match, it was visible, the input is the one named by
the `for` attribute or the parent's first input, and that input was visible
with the value written into it. -/
theorem fillTextByLabel_rawdom (pg : TextPage) (l v : String)
    (pg' : TextPage) (i : Nat)
    (h : fillTextByLabel pg l v =
      (pg', Except.ok i, [Strategy.accessibleLabel, Strategy.rawDOM])) :
    ∃ lab, (pg.rawLabels l).head? = some lab ∧ lab.visible = true ∧
      rawTargetOf pg lab = some i ∧
      ∃ f, nth ((fillStrategy1 pg l v).1).fields i = some f ∧
        f.visible = true ∧
        pg' = setFieldAt (fillStrategy1 pg l v).1 i { f with value := v } := by
  unfold fillTextByLabel at h
  cases hs1 : fillStrategy1 pg l v with
  | mk pg1 r1 =>
    rw [hs1] at h
    cases r1 with
    | ok k => simp at h
    | error e =>
      simp at h
      have h2 : fillStrategy2 pg1 l v = (pg', Except.ok i) := by
        have := Prod.mk.eta (p := fillStrategy2 pg1 l v)
        rw [← this, h.1, h.2]
      obtain ⟨lab, hhd, hvis, htg, hres⟩ := fillStrategy2_ok pg1 l v pg' i h2
      have hq1 := fillStrategy1_queries pg l v
      rw [hs1] at hq1
      refine ⟨lab, ?_, hvis, ?_, ?_⟩
      · rw [← hq1.2.1]
        exact hhd
      · unfold rawTargetOf at htg ⊢
        cases hfa : lab.forAttr with
        | none => rw [hfa] at htg; exact htg
        | some attr =>
          rw [hfa] at htg
          rw [← hq1.2.2]
          exact htg
      · obtain ⟨hj, f, hget, hfvis, hsiv, hpg'⟩ := fillResolved_ok pg1 i v pg' i hres
        exact ⟨f, hget, hfvis, hpg'⟩

/-!
## Concrete pages exercising `fillTextByLabel`
-/

/-- A plain visible text field that accepts bulk fill. -/
def demoField : InputField :=
  { value := "", visible := true, clickThrows := false, fillThrows := false,
    bulkFill := fun s => s, typeEffect := fun _ s => s, tabThrows := false }

/-- A page where the accessible-label strategy resolves field 0. -/
def demoTextPage : TextPage :=
  { fields := [demoField],
    byLabel := fun _ => some 0,
    rawLabels := fun _ => [],
    byId := fun _ => none }

/-- `demoTextPage` after a successful fill with value A. -/
def demoFilled : TextPage :=
  { fields := [{ demoField with value := "A" }],
    byLabel := fun _ => some 0,
    rawLabels := fun _ => [],
    byId := fun _ => none }

/-- A page whose first raw label match is hidden while the second matching
label is visible and points at a visible input. -/
def demoHiddenLabelPage : TextPage :=
  { fields := [demoField],
    byLabel := fun _ => none,
    rawLabels := fun _ =>
      [ { visible := false, forAttr := none, parentFirstInput := none },
        { visible := true, forAttr := some "street", parentFirstInput := none } ],
    byId := fun _ => some 0 }

/-- A page resolvable only through the raw-DOM strategy. -/
def demoRawPage : TextPage :=
  { fields := [demoField],
    byLabel := fun _ => none,
    rawLabels := fun _ =>
      [ { visible := true, forAttr := some "street", parentFirstInput := none } ],
    byId := fun _ => some 0 }

/-- Claim C1: on every normal return of `fillTextByLabel`, the field the
operation resolved and acted on holds exactly the requested value (when the
value never matches, the operation throws instead of returning), and the
trailing focus-shift Tab press failure is swallowed: it never changes the
thrown-or-not outcome of the executor. -/
theorem claim_C1_fill_verified :
    (∀ (pg : TextPage) (l v : String) (pg' : TextPage) (i : Nat)
      (tr : List Strategy),
      fillTextByLabel pg l v = (pg', Except.ok i, tr) →
      ∃ f, nth pg'.fields i = some f ∧ f.value = v) ∧
    (∀ (f : InputField) (v : String) (b : Bool),
      (setInputValue { f with tabThrows := b } v).2 = (setInputValue f v).2) :=
  ⟨fun pg l v pg' i tr h => fillTextByLabel_ok_value pg l v pg' i tr h,
   fun f v b => setInputValue_snd_tab_indep f v b⟩

/-- Witness for C1 at a concrete page: the fill succeeds and leaves the
value A in field 0, and a throwing Tab press does not change the outcome. -/
theorem claim_C1_fill_verified_witness :
    (∃ f, nth demoFilled.fields 0 = some f ∧ f.value = "A") ∧
    (setInputValue { demoField with tabThrows := true } "A").2 =
      (setInputValue demoField "A").2 :=
  ⟨claim_C1_fill_verified.1 demoTextPage "L" "A" demoFilled 0
      [Strategy.accessibleLabel] rfl,
   claim_C1_fill_verified.2 demoField "A" true⟩

/-- Claim C7: when `fillTextByLabel` succeeds, calling it again with the
same label and value succeeds again, changes nothing (the identical page is
returned), and the field still holds exactly the value. -/
theorem claim_C7_fill_idempotent :
    ∀ (pg : TextPage) (l v : String) (pg' : TextPage) (i : Nat)
      (tr : List Strategy),
      fillTextByLabel pg l v = (pg', Except.ok i, tr) →
      fillTextByLabel pg' l v = (pg', Except.ok i, tr) ∧
      ∃ f, nth pg'.fields i = some f ∧ f.value = v :=
  fun pg l v pg' i tr h =>
    ⟨fillTextByLabel_ok_fix pg l v pg' i tr h,
     fillTextByLabel_ok_value pg l v pg' i tr h⟩

/-- Witness for C7 at a concrete page: the second call returns the same
page, index and trace, and the value is unchanged. -/
theorem claim_C7_fill_idempotent_witness :
    fillTextByLabel demoFilled "L" "A" =
      (demoFilled, Except.ok 0, [Strategy.accessibleLabel]) ∧
    ∃ f, nth demoFilled.fields 0 = some f ∧ f.value = "A" :=
  claim_C7_fill_idempotent demoTextPage "L" "A" demoFilled 0
    [Strategy.accessibleLabel] rfl

/-- Counterexample to C8 as stated: the raw-DOM strategy does not take the
first VISIBLE matching label; it takes the first matching label and fails
if that one is hidden.  On this page the first raw match is hidden, the
second is visible with a resolvable visible input, and the operation
throws notVisible instead of filling. -/
theorem claim_C8_counterexample :
    (fillTextByLabel demoHiddenLabelPage "Street" "A").2.1 =
      Except.error ExecError.notVisible ∧
    ((demoHiddenLabelPage.rawLabels "Street").head?).map TextLabel.visible =
      some false ∧
    ∃ lab, nth (demoHiddenLabelPage.rawLabels "Street") 1 = some lab ∧
      lab.visible = true ∧
      rawTargetOf demoHiddenLabelPage lab = some 0 ∧
      (nth demoHiddenLabelPage.fields 0).map InputField.visible = some true :=
  ⟨rfl, rfl,
    ⟨{ visible := true, forAttr := some "street", parentFirstInput := none },
      rfl, rfl, rfl, rfl⟩⟩

/-- Claim C8 (amended): when the accessible-label strategy misses and
`fillTextByLabel` succeeds through the raw-DOM strategy, the label used is
the FIRST label containing the text (which must itself be visible — a
hidden first match fails the whole operation even when a later match is
visible); the target input is the element whose id equals the label's
`for` attribute when present, else the first input/textarea under the
label's parent; and that input was visible before the fill was applied. -/
theorem claim_C8_raw_dom :
    ∀ (pg : TextPage) (l v : String) (pg' : TextPage) (i : Nat),
      fillTextByLabel pg l v =
        (pg', Except.ok i, [Strategy.accessibleLabel, Strategy.rawDOM]) →
      ∃ lab, (pg.rawLabels l).head? = some lab ∧ lab.visible = true ∧
        rawTargetOf pg lab = some i ∧
        ∃ f, nth ((fillStrategy1 pg l v).1).fields i = some f ∧
          f.visible = true ∧
          pg' = setFieldAt (fillStrategy1 pg l v).1 i { f with value := v } :=
  fun pg l v pg' i h => fillTextByLabel_rawdom pg l v pg' i h

/-- Witness for the amended C8 at a concrete raw-DOM page. -/
theorem claim_C8_raw_dom_witness :
    ∃ lab, (demoRawPage.rawLabels "Street").head? = some lab ∧
      lab.visible = true ∧
      rawTargetOf demoRawPage lab = some 0 ∧
      ∃ f, nth ((fillStrategy1 demoRawPage "Street" "A").1).fields 0 = some f ∧
        f.visible = true ∧
        setFieldAt demoRawPage 0 { demoField with value := "A" } =
          setFieldAt (fillStrategy1 demoRawPage "Street" "A").1 0
            { f with value := "A" } :=
  claim_C8_raw_dom demoRawPage "Street" "A"
    (setFieldAt demoRawPage 0 { demoField with value := "A" }) 0 rfl

/-!
## Checkboxes: `setCheckboxByLabel` (src/utils/elements.ts)

`check()` implements the Playwright semantics: it returns immediately when
the control is already checked, and otherwise it throws when the control is
not actionable or ends checked.  Clicking a label element toggles the
checkbox the label is associated with (its `clickTarget`), or does nothing
when the label has no associated control.
-/

structure Checkbox where
  checked : Bool
  checkThrows : Bool
deriving DecidableEq, Repr

/-- A label inside a `bq-checkbox` wrapper: clicking it toggles its
associated checkbox, if any. -/
structure CbLabel where
  clickThrows : Bool
  clickTarget : Option Nat
deriving DecidableEq, Repr

/-- A `bq-checkbox` component wrapper containing a matching label. -/
structure BqCheckbox where
  visible : Bool
  innerLabel : Option CbLabel
deriving DecidableEq, Repr

/-- A raw `label` element matched by the last-resort strategy. -/
structure RawCbLabel where
  visible : Bool
  forAttr : Option String
  descendantCheckbox : Option Nat
  clickThrows : Bool
  clickTarget : Option Nat
deriving DecidableEq, Repr

structure CbPage where
  checkboxes : List Checkbox
  byRoleCheckbox : String → Option Nat
  byLabelCheckbox : String → Option Nat
  bqCheckbox : String → Option BqCheckbox
  rawCbLabels : String → List RawCbLabel
  byIdCheckbox : String → Option Nat

/-- Playwright `check()`: early return when already checked, otherwise
click the control, throwing when it is not actionable. -/
def doCheck (cb : Checkbox) : Checkbox × Option ExecError :=
  if cb.checked then (cb, none)
  else if cb.checkThrows then (cb, some ExecError.notActionable)
  else ({ cb with checked := true }, none)

def setCbAt (pg : CbPage) (i : Nat) (cb : Checkbox) : CbPage :=
  { pg with checkboxes := pg.checkboxes.set i cb }

/-- Run `check()` on the checkbox a locator resolved to (error when the
locator resolved to nothing). -/
def checkAt (pg : CbPage) (q : Option Nat) :
    CbPage × Except ExecError (Option Nat) :=
  match q with
  | none => (pg, Except.error ExecError.notFound)
  | some i =>
    match nth pg.checkboxes i with
    | none => (pg, Except.error ExecError.notFound)
    | some cb =>
      match doCheck cb with
      | (cb1, none) => (setCbAt pg i cb1, Except.ok (some i))
      | (_, some e) => (pg, Except.error e)

/-- Click a label element: toggles the associated checkbox, or toggles
nothing when the label has no associated control. -/
def clickCbLabel (pg : CbPage) (clickThrows : Bool) (target : Option Nat) :
    CbPage × Except ExecError (Option Nat) :=
  if clickThrows then (pg, Except.error ExecError.notActionable)
  else
    match target with
    | none => (pg, Except.ok none)
    | some i =>
      match nth pg.checkboxes i with
      | none => (pg, Except.ok none)
      | some cb =>
        (setCbAt pg i { cb with checked := !cb.checked }, Except.ok (some i))

/-- Strategy 1: `getByRole checkbox` with the accessible name, then check. -/
def cbStrategy1 (pg : CbPage) (l : String) :
    CbPage × Except ExecError (Option Nat) :=
  checkAt pg (pg.byRoleCheckbox l)

/-- Strategy 2: `getByLabel` exact, then check. -/
def cbStrategy2 (pg : CbPage) (l : String) :
    CbPage × Except ExecError (Option Nat) :=
  checkAt pg (pg.byLabelCheckbox l)

/-- Strategy 3: the `bq-checkbox` wrapper containing a matching label; wait
for the wrapper, then click the label (a toggle, not a check). -/
def cbStrategy3 (pg : CbPage) (l : String) :
    CbPage × Except ExecError (Option Nat) :=
  match pg.bqCheckbox l with
  | none => (pg, Except.error ExecError.notFound)
  | some bq =>
    if bq.visible then
      match bq.innerLabel with
      | none => (pg, Except.error ExecError.notFound)
      | some lab => clickCbLabel pg lab.clickThrows lab.clickTarget
    else (pg, Except.error ExecError.notVisible)

/-- Raw-DOM target of the last-resort strategy: `#for` when the label has a
`for` attribute, else the first checkbox input inside the label. -/
def rawCbTarget (pg : CbPage) (lab : RawCbLabel) : Option Nat :=
  match lab.forAttr with
  | some attr => pg.byIdCheckbox attr
  | none => lab.descendantCheckbox

/-- Strategy 4: first raw label match, wait visible, try `check()` on the
resolved input, and on failure fall back to clicking the label (toggle). -/
def cbStrategy4 (pg : CbPage) (l : String) :
    CbPage × Except ExecError (Option Nat) :=
  match (pg.rawCbLabels l).head? with
  | none => (pg, Except.error ExecError.notFound)
  | some lab =>
    if lab.visible then
      match checkAt pg (rawCbTarget pg lab) with
      | (pg1, Except.ok r) => (pg1, Except.ok r)
      | (pg1, Except.error _) => clickCbLabel pg1 lab.clickThrows lab.clickTarget
    else (pg, Except.error ExecError.notVisible)

/-- Tail of the chain starting at strategy 4 (no catch around it). -/
def cbFrom4 (pg : CbPage) (l : String) :
    CbPage × Except ExecError (Option Nat) × List Strategy :=
  ((cbStrategy4 pg l).1, (cbStrategy4 pg l).2, [Strategy.rawDOM])

/-- Tail of the chain starting at strategy 3: commit on success, fall
through to strategy 4 on a caught error. -/
def cbFrom3 (pg : CbPage) (l : String) :
    CbPage × Except ExecError (Option Nat) × List Strategy :=
  match cbStrategy3 pg l with
  | (pg3, Except.ok r) => (pg3, Except.ok r, [Strategy.componentLibrary])
  | (pg3, Except.error _) =>
    let t := cbFrom4 pg3 l
    (t.1, t.2.1, Strategy.componentLibrary :: t.2.2)

/-- Tail of the chain starting at strategy 2. -/
def cbFrom2 (pg : CbPage) (l : String) :
    CbPage × Except ExecError (Option Nat) × List Strategy :=
  match cbStrategy2 pg l with
  | (pg2, Except.ok r) => (pg2, Except.ok r, [Strategy.accessibleLabel])
  | (pg2, Except.error _) =>
    let t := cbFrom3 pg2 l
    (t.1, t.2.1, Strategy.accessibleLabel :: t.2.2)

/-- `setCheckboxByLabel(page, labelText)`: the four-strategy chain with
try/catch alternation, returning the final page, the checkbox acted on (if
any) and the trace of strategies entered. -/
def setCheckboxByLabel (pg : CbPage) (l : String) :
    CbPage × Except ExecError (Option Nat) × List Strategy :=
  match cbStrategy1 pg l with
  | (pg1, Except.ok r) => (pg1, Except.ok r, [Strategy.accessibleRole])
  | (pg1, Except.error _) =>
    let t := cbFrom2 pg1 l
    (t.1, t.2.1, Strategy.accessibleRole :: t.2.2)

/-- A successful `doCheck` leaves the checkbox checked. -/
theorem doCheck_ok (cb cb1 : Checkbox) (h : doCheck cb = (cb1, none)) :
    cb1.checked = true := by
  unfold doCheck at h
  by_cases hc : cb.checked
  · simp [hc] at h
    rw [← h]
    exact hc
  · by_cases ht : cb.checkThrows
    · simp [hc, ht] at h
    · simp [hc, ht] at h
      rw [← h]

/-- A successful `checkAt` acted on the resolved index and left that
checkbox checked. -/
theorem checkAt_ok (pg : CbPage) (q : Option Nat) (pg' : CbPage)
    (r : Option Nat) (h : checkAt pg q = (pg', Except.ok r)) :
    ∃ i, r = some i ∧ q = some i ∧
      ∃ cb', nth pg'.checkboxes i = some cb' ∧ cb'.checked = true := by
  unfold checkAt at h
  cases hq : q with
  | none => simp only [hq] at h; simp at h
  | some i =>
    simp only [hq] at h
    cases hget : nth pg.checkboxes i with
    | none => simp only [hget] at h; simp at h
    | some cb =>
      simp only [hget] at h
      cases hdc : doCheck cb with
      | mk cb1 err =>
        cases err with
        | none =>
          simp only [hdc] at h
          simp at h
          refine ⟨i, h.2.symm, rfl, cb1, ?_, doCheck_ok cb cb1 hdc⟩
          rw [← h.1]
          unfold setCbAt
          exact nthSetSelf pg.checkboxes i _ _ hget
        | some e => simp only [hdc] at h; simp at h

/-- A failed `checkAt` leaves the page unchanged. -/
theorem checkAt_err (pg : CbPage) (q : Option Nat) (pg' : CbPage)
    (e : ExecError) (h : checkAt pg q = (pg', Except.error e)) : pg' = pg := by
  unfold checkAt at h
  cases hq : q with
  | none => simp only [hq] at h; simp at h; exact h.1.symm
  | some i =>
    simp only [hq] at h
    cases hget : nth pg.checkboxes i with
    | none => simp only [hget] at h; simp at h; exact h.1.symm
    | some cb =>
      simp only [hget] at h
      cases hdc : doCheck cb with
      | mk cb1 err =>
        cases err with
        | none => simp only [hdc] at h; simp at h
        | some e1 => simp only [hdc] at h; simp at h; exact h.1.symm

/-- A successful label click toggled the checkbox it acted on (when it
acted on one). -/
theorem clickCbLabel_ok (pg : CbPage) (ct : Bool) (tgt : Option Nat)
    (pg' : CbPage) (i : Nat)
    (h : clickCbLabel pg ct tgt = (pg', Except.ok (some i))) :
    ∃ cb, nth pg.checkboxes i = some cb ∧
      nth pg'.checkboxes i = some { cb with checked := !cb.checked } := by
  unfold clickCbLabel at h
  by_cases hct : ct
  · simp [hct] at h
  · simp only [hct, Bool.false_eq_true, if_false] at h
    cases htg : tgt with
    | none => simp only [htg] at h; simp at h
    | some j =>
      simp only [htg] at h
      cases hget : nth pg.checkboxes j with
      | none => simp only [hget] at h; simp at h
      | some cb =>
        simp only [hget] at h
        simp at h
        obtain ⟨hpg, hji⟩ := h
        rw [← hji]
        refine ⟨cb, hget, ?_⟩
        rw [← hpg]
        unfold setCbAt
        exact nthSetSelf pg.checkboxes j _ _ hget

/-- A failed label click leaves the page unchanged. -/
theorem clickCbLabel_err (pg : CbPage) (ct : Bool) (tgt : Option Nat)
    (pg' : CbPage) (e : ExecError)
    (h : clickCbLabel pg ct tgt = (pg', Except.error e)) : pg' = pg := by
  unfold clickCbLabel at h
  by_cases hct : ct
  · simp [hct] at h
    exact h.1.symm
  · simp only [hct, Bool.false_eq_true, if_false] at h
    cases htg : tgt with
    | none => simp only [htg] at h; simp at h
    | some j =>
      simp only [htg] at h
      cases hget : nth pg.checkboxes j with
      | none => simp only [hget] at h; simp at h
      | some cb => simp only [hget] at h; simp at h

/-- A failed strategy 3 leaves the page unchanged. -/
theorem cbStrategy3_err (pg : CbPage) (l : String) (pg' : CbPage)
    (e : ExecError) (h : cbStrategy3 pg l = (pg', Except.error e)) :
    pg' = pg := by
  unfold cbStrategy3 at h
  cases hq : pg.bqCheckbox l with
  | none => simp only [hq] at h; simp at h; exact h.1.symm
  | some bq =>
    simp only [hq] at h
    by_cases hv : bq.visible
    · simp only [hv, if_true] at h
      cases hil : bq.innerLabel with
      | none => simp only [hil] at h; simp at h; exact h.1.symm
      | some lab =>
        simp only [hil] at h
        exact clickCbLabel_err pg lab.clickThrows lab.clickTarget pg' e h
    · simp [hv] at h
      exact h.1.symm

/-- Eta helper: a triple whose first two components are known. -/
theorem tripleEta {A B C : Type} (x : A × B × C) (a : A) (b : B)
    (h1 : x.1 = a) (h2 : x.2.1 = b) : x = (a, b, x.2.2) := by
  rw [← h1, ← h2]

/-- A successful strategy 3 toggled the checkbox it acted on. -/
theorem cbStrategy3_ok (pg : CbPage) (l : String) (pg' : CbPage) (i : Nat)
    (h : cbStrategy3 pg l = (pg', Except.ok (some i))) :
    ∃ cb, nth pg.checkboxes i = some cb ∧
      nth pg'.checkboxes i = some { cb with checked := !cb.checked } := by
  unfold cbStrategy3 at h
  cases hq : pg.bqCheckbox l with
  | none => simp only [hq] at h; simp at h
  | some bq =>
    simp only [hq] at h
    by_cases hv : bq.visible
    · simp only [hv, if_true] at h
      cases hil : bq.innerLabel with
      | none => simp only [hil] at h; simp at h
      | some lab =>
        simp only [hil] at h
        exact clickCbLabel_ok pg lab.clickThrows lab.clickTarget pg' i h
    · simp [hv] at h

/-- A successful strategy 4 either checked the resolved input (leaving it
checked) or fell back to the label click (a toggle). -/
theorem cbStrategy4_ok (pg : CbPage) (l : String) (pg' : CbPage) (i : Nat)
    (h : cbStrategy4 pg l = (pg', Except.ok (some i))) :
    (∃ cb', nth pg'.checkboxes i = some cb' ∧ cb'.checked = true) ∨
    (∃ cb, nth pg.checkboxes i = some cb ∧
      nth pg'.checkboxes i = some { cb with checked := !cb.checked }) := by
  unfold cbStrategy4 at h
  cases hhd : (pg.rawCbLabels l).head? with
  | none => simp only [hhd] at h; simp at h
  | some lab =>
    simp only [hhd] at h
    by_cases hv : lab.visible
    · simp only [hv, if_true] at h
      cases hca : checkAt pg (rawCbTarget pg lab) with
      | mk pgA rA =>
        cases rA with
        | ok r =>
          simp only [hca] at h
          simp at h
          obtain ⟨hpg, hr⟩ := h
          rw [← hpg]
          obtain ⟨j, hrj, hqj, cb', hcb', hchk⟩ :=
            checkAt_ok pg (rawCbTarget pg lab) pgA r hca
          rw [hrj] at hr
          injection hr with hji
          rw [← hji]
          exact Or.inl ⟨cb', hcb', hchk⟩
        | error e =>
          simp only [hca] at h
          have hA : pgA = pg := checkAt_err pg (rawCbTarget pg lab) pgA e hca
          rw [hA] at h
          exact Or.inr (clickCbLabel_ok pg lab.clickThrows lab.clickTarget pg' i h)
    · simp [hv] at h

/-- The acted-checkbox outcome for the chain tail from strategy 4. -/
theorem cbFrom4_acted (pg : CbPage) (l : String) (pg' : CbPage) (i : Nat)
    (tr : List Strategy)
    (h : cbFrom4 pg l = (pg', Except.ok (some i), tr)) :
    (∃ cb', nth pg'.checkboxes i = some cb' ∧ cb'.checked = true) ∨
    (∃ cb, nth pg.checkboxes i = some cb ∧
      nth pg'.checkboxes i = some { cb with checked := !cb.checked }) := by
  unfold cbFrom4 at h
  simp at h
  have h4 : cbStrategy4 pg l = (pg', Except.ok (some i)) := by
    have := Prod.mk.eta (p := cbStrategy4 pg l)
    rw [← this, h.1, h.2.1]
  exact cbStrategy4_ok pg l pg' i h4

/-- The acted-checkbox outcome for the chain tail from strategy 3. -/
theorem cbFrom3_acted (pg : CbPage) (l : String) (pg' : CbPage) (i : Nat)
    (tr : List Strategy)
    (h : cbFrom3 pg l = (pg', Except.ok (some i), tr)) :
    (∃ cb', nth pg'.checkboxes i = some cb' ∧ cb'.checked = true) ∨
    (∃ cb, nth pg.checkboxes i = some cb ∧
      nth pg'.checkboxes i = some { cb with checked := !cb.checked }) := by
  unfold cbFrom3 at h
  cases hs : cbStrategy3 pg l with
  | mk pg3 r3 =>
    rw [hs] at h
    cases r3 with
    | ok r =>
      simp at h
      obtain ⟨hpg, hr, htr⟩ := h
      rw [hpg, hr] at hs
      exact Or.inr (cbStrategy3_ok pg l pg' i hs)
    | error e =>
      simp at h
      have h3 : pg3 = pg := cbStrategy3_err pg l pg3 e hs
      rw [h3] at h
      have h4 : cbFrom4 pg l =
          (pg', Except.ok (some i), (cbFrom4 pg l).2.2) :=
        tripleEta (cbFrom4 pg l) pg' (Except.ok (some i)) h.1 h.2.1
      exact cbFrom4_acted pg l pg' i _ h4

/-- The acted-checkbox outcome for the chain tail from strategy 2. -/
theorem cbFrom2_acted (pg : CbPage) (l : String) (pg' : CbPage) (i : Nat)
    (tr : List Strategy)
    (h : cbFrom2 pg l = (pg', Except.ok (some i), tr)) :
    (∃ cb', nth pg'.checkboxes i = some cb' ∧ cb'.checked = true) ∨
    (∃ cb, nth pg.checkboxes i = some cb ∧
      nth pg'.checkboxes i = some { cb with checked := !cb.checked }) := by
  unfold cbFrom2 at h
  cases hs : cbStrategy2 pg l with
  | mk pg2 r2 =>
    rw [hs] at h
    cases r2 with
    | ok r =>
      simp at h
      obtain ⟨hpg, hr, htr⟩ := h
      rw [hpg, hr] at hs
      obtain ⟨j, hrj, hqj, cb', hcb', hchk⟩ :=
        checkAt_ok pg (pg.byLabelCheckbox l) pg' (some i) hs
      injection hrj with hji
      rw [hji]
      exact Or.inl ⟨cb', hcb', hchk⟩
    | error e =>
      simp at h
      have h2 : pg2 = pg := checkAt_err pg (pg.byLabelCheckbox l) pg2 e hs
      rw [h2] at h
      have h3 : cbFrom3 pg l =
          (pg', Except.ok (some i), (cbFrom3 pg l).2.2) :=
        tripleEta (cbFrom3 pg l) pg' (Except.ok (some i)) h.1 h.2.1
      exact cbFrom3_acted pg l pg' i _ h3

/-- The acted-checkbox outcome of the whole chain. -/
theorem setCheckboxByLabel_acted (pg : CbPage) (l : String) (pg' : CbPage)
    (i : Nat) (tr : List Strategy)
    (h : setCheckboxByLabel pg l = (pg', Except.ok (some i), tr)) :
    (∃ cb', nth pg'.checkboxes i = some cb' ∧ cb'.checked = true) ∨
    (∃ cb, nth pg.checkboxes i = some cb ∧
      nth pg'.checkboxes i = some { cb with checked := !cb.checked }) := by
  unfold setCheckboxByLabel at h
  cases hs : cbStrategy1 pg l with
  | mk pg1 r1 =>
    rw [hs] at h
    cases r1 with
    | ok r =>
      simp at h
      obtain ⟨hpg, hr, htr⟩ := h
      rw [hpg, hr] at hs
      obtain ⟨j, hrj, hqj, cb', hcb', hchk⟩ :=
        checkAt_ok pg (pg.byRoleCheckbox l) pg' (some i) hs
      injection hrj with hji
      rw [hji]
      exact Or.inl ⟨cb', hcb', hchk⟩
    | error e =>
      simp at h
      have h1 : pg1 = pg := checkAt_err pg (pg.byRoleCheckbox l) pg1 e hs
      rw [h1] at h
      have h2 : cbFrom2 pg l =
          (pg', Except.ok (some i), (cbFrom2 pg l).2.2) :=
        tripleEta (cbFrom2 pg l) pg' (Except.ok (some i)) h.1 h.2.1
      exact cbFrom2_acted pg l pg' i _ h2

/-- When no strategy can resolve anything, the chain throws. -/
theorem setCheckboxByLabel_exhaust (pg : CbPage) (l : String)
    (h1 : pg.byRoleCheckbox l = none) (h2 : pg.byLabelCheckbox l = none)
    (h3 : pg.bqCheckbox l = none) (h4 : pg.rawCbLabels l = []) :
    (setCheckboxByLabel pg l).2.1 = Except.error ExecError.notFound := by
  unfold setCheckboxByLabel cbFrom2 cbFrom3 cbFrom4
    cbStrategy1 cbStrategy2 cbStrategy3 cbStrategy4 checkAt
  simp [h1, h2, h3, h4]

/-!
## Concrete pages exercising `setCheckboxByLabel`
-/

/-- An already-checked checkbox reachable only through the `bq-checkbox`
component wrapper, whose label click toggles it. -/
def demoToggleCbPage : CbPage :=
  { checkboxes := [{ checked := true, checkThrows := false }],
    byRoleCheckbox := fun _ => none,
    byLabelCheckbox := fun _ => none,
    bqCheckbox := fun _ =>
      some { visible := true,
             innerLabel := some { clickThrows := false, clickTarget := some 0 } },
    rawCbLabels := fun _ => [],
    byIdCheckbox := fun _ => none }

/-- An unchecked checkbox resolvable by the accessible-role strategy. -/
def demoUncheckedCbPage : CbPage :=
  { checkboxes := [{ checked := false, checkThrows := false }],
    byRoleCheckbox := fun _ => some 0,
    byLabelCheckbox := fun _ => none,
    bqCheckbox := fun _ => none,
    rawCbLabels := fun _ => [],
    byIdCheckbox := fun _ => none }

/-- A page on which no checkbox strategy can resolve anything. -/
def demoEmptyCbPage : CbPage :=
  { checkboxes := [],
    byRoleCheckbox := fun _ => none,
    byLabelCheckbox := fun _ => none,
    bqCheckbox := fun _ => none,
    rawCbLabels := fun _ => [],
    byIdCheckbox := fun _ => none }

/-- Counterexample to C3 as stated: on a page whose already-checked
checkbox is resolvable only through the component-library strategy, the
call returns normally but the label click TOGGLES the checkbox, leaving it
unchecked — refuting that every normal return leaves the resolved checkbox
checked even when it was checked before the call. -/
theorem claim_C3_counterexample :
    (setCheckboxByLabel demoToggleCbPage "Terms").2.1 = Except.ok (some 0) ∧
    (nth demoToggleCbPage.checkboxes 0).map Checkbox.checked = some true ∧
    (nth ((setCheckboxByLabel demoToggleCbPage "Terms").1).checkboxes 0).map
      Checkbox.checked = some false :=
  ⟨rfl, rfl, rfl⟩

/-- Claim C3 (amended): on every normal return that acted on a checkbox
which was unchecked before the call, that checkbox ends checked; the
accessible-role and accessible-label strategies use `check()` and so also
preserve an already-checked box, but the component-library and raw-DOM
label-click fallbacks toggle, so an already-checked box can end unchecked;
and the operation throws when no strategy resolves any checkbox or label. -/
theorem claim_C3_checkbox :
    (∀ (pg : CbPage) (l : String) (pg' : CbPage) (i : Nat)
      (tr : List Strategy),
      setCheckboxByLabel pg l = (pg', Except.ok (some i), tr) →
      ∀ cb, nth pg.checkboxes i = some cb → cb.checked = false →
        ∃ cb', nth pg'.checkboxes i = some cb' ∧ cb'.checked = true) ∧
    (∀ (pg : CbPage) (l : String),
      pg.byRoleCheckbox l = none → pg.byLabelCheckbox l = none →
      pg.bqCheckbox l = none → pg.rawCbLabels l = [] →
      (setCheckboxByLabel pg l).2.1 = Except.error ExecError.notFound) := by
  constructor
  · intro pg l pg' i tr h cb hget hunchecked
    rcases setCheckboxByLabel_acted pg l pg' i tr h with
      ⟨cb', hcb', hchk⟩ | ⟨cb0, hcb0, htog⟩
    · exact ⟨cb', hcb', hchk⟩
    · rw [hget] at hcb0
      injection hcb0 with hcb0
      rw [← hcb0] at htog
      refine ⟨{ cb with checked := !cb.checked }, htog, ?_⟩
      rw [hunchecked]
      rfl
  · intro pg l h1 h2 h3 h4
    exact setCheckboxByLabel_exhaust pg l h1 h2 h3 h4

/-- Witness for the amended C3: an unchecked checkbox resolved via the
accessible-role strategy ends checked, and the empty page throws. -/
theorem claim_C3_checkbox_witness :
    (∃ cb', nth ((setCheckboxByLabel demoUncheckedCbPage "Terms").1).checkboxes 0 =
      some cb' ∧ cb'.checked = true) ∧
    (setCheckboxByLabel demoEmptyCbPage "Terms").2.1 =
      Except.error ExecError.notFound :=
  ⟨claim_C3_checkbox.1 demoUncheckedCbPage "Terms"
      ((setCheckboxByLabel demoUncheckedCbPage "Terms").1) 0
      [Strategy.accessibleRole] rfl
      { checked := false, checkThrows := false } rfl rfl,
   claim_C3_checkbox.2 demoEmptyCbPage "Terms" rfl rfl rfl rfl⟩

/-!
## Selects: `selectMatOption` and `selectMatOptionByLabel`
(src/utils/elements.ts)

An `OptionElem` is a clickable element somewhere on the page; whether it
lies inside the currently open option list is recorded in `inOpenList`.
`byRoleOption` is `getByRole option exact`; `matOptions` lists the
`mat-option` matches in DOM order; `textMatches` lists ALL elements on the
page whose text equals the option text, in DOM order — the final fallback
takes the first of those, wherever it is.
-/

structure OptionElem where
  visible : Bool
  clickThrows : Bool
  inOpenList : Bool
deriving DecidableEq, Repr

structure SelPage where
  options : List OptionElem
  byRoleOption : String → Option Nat
  matOptions : String → List Nat
  textMatches : String → List Nat

/-- Wait for the element a locator resolved to and click it. -/
def optClick (pg : SelPage) (q : Option Nat) : Except ExecError Nat :=
  match q with
  | none => Except.error ExecError.notFound
  | some i =>
    match nth pg.options i with
    | none => Except.error ExecError.notFound
    | some o =>
      if o.visible then
        if o.clickThrows then Except.error ExecError.notActionable
        else Except.ok i
      else Except.error ExecError.notVisible

/-- `selectMatOption(page, optionText)`: role=option lookup, then first
`mat-option` with the text, then the first element anywhere on the page
with exactly that text.  Returns the index of the element clicked and the
trace of strategies entered. -/
def selectMatOption (pg : SelPage) (t : String) :
    Except ExecError Nat × List Strategy :=
  match optClick pg (pg.byRoleOption t) with
  | Except.ok i => (Except.ok i, [Strategy.accessibleRole])
  | Except.error _ =>
    match optClick pg ((pg.matOptions t).head?) with
    | Except.ok i =>
      (Except.ok i, [Strategy.accessibleRole, Strategy.componentLibrary])
    | Except.error _ =>
      (optClick pg ((pg.textMatches t).head?),
        [Strategy.accessibleRole, Strategy.componentLibrary, Strategy.rawDOM])

/-- A trigger element that opens the select when clicked. -/
structure SelTrigger where
  clickThrows : Bool
deriving DecidableEq, Repr

/-- A `bq-select` component wrapper with its `.mat-mdc-select-trigger`. -/
structure BqSelect where
  visible : Bool
  triggerClickThrows : Bool
deriving DecidableEq, Repr

/-- A raw label match used by the last-resort select strategy. -/
structure SelLabel where
  visible : Bool
  forAttr : Option String
  clickThrows : Bool
deriving DecidableEq, Repr

structure SelByLabelPage where
  opts : SelPage
  byLabelTrigger : String → Option SelTrigger
  bqSelect : String → Option BqSelect
  rawSelLabels : String → List SelLabel
  byIdTrigger : String → Option SelTrigger

/-- Select strategy 1: `getByLabel` the field, click it to open, then run
the option chooser; any error (including of the chooser) is caught. -/
def selByLabelStrategy1 (pg : SelByLabelPage) (l t : String) :
    Except ExecError Nat :=
  match pg.byLabelTrigger l with
  | none => Except.error ExecError.notFound
  | some trig =>
    if trig.clickThrows then Except.error ExecError.notActionable
    else (selectMatOption pg.opts t).1

/-- Select strategy 2: the `bq-select` wrapper containing a matching
label; wait for it, click its trigger, run the option chooser. -/
def selByLabelStrategy2 (pg : SelByLabelPage) (l t : String) :
    Except ExecError Nat :=
  match pg.bqSelect l with
  | none => Except.error ExecError.notFound
  | some bq =>
    if bq.visible then
      if bq.triggerClickThrows then Except.error ExecError.notActionable
      else (selectMatOption pg.opts t).1
    else Except.error ExecError.notVisible

/-- Select strategy 3 (raw DOM, uncaught): first raw label match, wait
visible, click `#for` when present else the label itself, then run the
option chooser. -/
def selByLabelStrategy3 (pg : SelByLabelPage) (l t : String) :
    Except ExecError Nat :=
  match (pg.rawSelLabels l).head? with
  | none => Except.error ExecError.notFound
  | some lab =>
    if lab.visible then
      match lab.forAttr with
      | some attr =>
        match pg.byIdTrigger attr with
        | none => Except.error ExecError.notFound
        | some trig =>
          if trig.clickThrows then Except.error ExecError.notActionable
          else (selectMatOption pg.opts t).1
      | none =>
        if lab.clickThrows then Except.error ExecError.notActionable
        else (selectMatOption pg.opts t).1
    else Except.error ExecError.notVisible

/-- `selectMatOptionByLabel(page, labelText, optionText)`: the three
opening strategies with try/catch alternation around the first two. -/
def selectMatOptionByLabel (pg : SelByLabelPage) (l t : String) :
    Except ExecError Nat × List Strategy :=
  match selByLabelStrategy1 pg l t with
  | Except.ok i => (Except.ok i, [Strategy.accessibleLabel])
  | Except.error _ =>
    match selByLabelStrategy2 pg l t with
    | Except.ok i =>
      (Except.ok i, [Strategy.accessibleLabel, Strategy.componentLibrary])
    | Except.error _ =>
      (selByLabelStrategy3 pg l t,
        [Strategy.accessibleLabel, Strategy.componentLibrary,
          Strategy.rawDOM])

/-- List helper: the head, when present, is a member. -/
theorem headMem {α : Type} (xs : List α) (a : α) (h : xs.head? = some a) :
    a ∈ xs := by
  cases xs with
  | nil => simp at h
  | cons x xs =>
    simp at h
    rw [← h]
    exact List.mem_cons_self x xs

/-- A successful `optClick` clicked exactly the element the locator
resolved to, and that element was visible. -/
theorem optClick_ok (pg : SelPage) (q : Option Nat) (i : Nat)
    (h : optClick pg q = Except.ok i) :
    q = some i ∧ ∃ o, nth pg.options i = some o ∧ o.visible = true := by
  unfold optClick at h
  cases hq : q with
  | none => simp only [hq] at h; simp at h
  | some j =>
    simp only [hq] at h
    cases hget : nth pg.options j with
    | none => simp only [hget] at h; simp at h
    | some o =>
      simp only [hget] at h
      by_cases hv : o.visible
      · simp only [hv, if_true] at h
        by_cases hc : o.clickThrows
        · simp [hc] at h
        · simp [hc] at h
          rw [← h]
          exact ⟨rfl, o, hget, hv⟩
      · simp [hv] at h

/-!
## Concrete pages exercising `selectMatOption`
-/

/-- A page whose only element with the option text lies OUTSIDE the open
option list; role and mat-option lookups miss. -/
def demoOffListSelPage : SelPage :=
  { options := [{ visible := true, clickThrows := false, inOpenList := false }],
    byRoleOption := fun _ => none,
    matOptions := fun _ => [],
    textMatches := fun _ => [0] }

/-- A page where the role=option strategy resolves an element inside the
open option list. -/
def demoInListSelPage : SelPage :=
  { options := [{ visible := true, clickThrows := false, inOpenList := true }],
    byRoleOption := fun _ => some 0,
    matOptions := fun _ => [],
    textMatches := fun _ => [] }

/-- Counterexample to C4 as stated: when the role=option and mat-option
strategies miss, the final fallback clicks the first element anywhere on
the page carrying the option text — here an element that does NOT lie in
the open option list — and the operation still returns normally. -/
theorem claim_C4_counterexample :
    (selectMatOption demoOffListSelPage "Slovakia").1 = Except.ok 0 ∧
    (nth demoOffListSelPage.options 0).map OptionElem.inOpenList =
      some false ∧
    (selectMatOption demoOffListSelPage "Slovakia").2 =
      [Strategy.accessibleRole, Strategy.componentLibrary,
        Strategy.rawDOM] :=
  ⟨rfl, rfl, rfl⟩

/-- Claim C4 (amended): the element clicked by `selectMatOption` lies in
the open option list whenever the operation commits to the role=option or
mat-option strategies and those element kinds appear only inside the open
list; the final raw-text fallback, however, clicks the first element
anywhere on the page with the matching text, which need not belong to the
open option list. -/
theorem claim_C4_select_scoped :
    ∀ (pg : SelPage) (t : String) (i : Nat) (tr : List Strategy),
      (∀ j, pg.byRoleOption t = some j →
        ∃ o, nth pg.options j = some o ∧ o.inOpenList = true) →
      (∀ j, j ∈ pg.matOptions t →
        ∃ o, nth pg.options j = some o ∧ o.inOpenList = true) →
      selectMatOption pg t = (Except.ok i, tr) →
      tr ≠ [Strategy.accessibleRole, Strategy.componentLibrary,
        Strategy.rawDOM] →
      ∃ o, nth pg.options i = some o ∧ o.inOpenList = true := by
  intro pg t i tr hrole hmat h htr
  unfold selectMatOption at h
  cases hs1 : optClick pg (pg.byRoleOption t) with
  | ok j =>
    rw [hs1] at h
    simp at h
    obtain ⟨hji, _⟩ := h
    rw [hji] at hs1
    exact hrole i (optClick_ok pg (pg.byRoleOption t) i hs1).1
  | error e1 =>
    rw [hs1] at h
    cases hs2 : optClick pg ((pg.matOptions t).head?) with
    | ok j =>
      rw [hs2] at h
      simp at h
      obtain ⟨hji, _⟩ := h
      rw [hji] at hs2
      have hhd := (optClick_ok pg ((pg.matOptions t).head?) i hs2).1
      exact hmat i (headMem (pg.matOptions t) i hhd)
    | error e2 =>
      rw [hs2] at h
      simp at h
      exact absurd h.2.symm htr

/-- Witness for the amended C4: a role-resolved option inside the list. -/
theorem claim_C4_select_scoped_witness :
    ∃ o, nth demoInListSelPage.options 0 = some o ∧ o.inOpenList = true :=
  claim_C4_select_scoped demoInListSelPage "Slovakia" 0
    [Strategy.accessibleRole]
    (by
      intro j hj
      injection hj with hj
      rw [← hj]
      exact ⟨{ visible := true, clickThrows := false, inOpenList := true },
        rfl, rfl⟩)
    (by intro j hj; exact absurd hj (List.not_mem_nil j))
    rfl
    (by decide)

/-!
## Radio groups: `setRadioByLabel` (src/utils/elements.ts)
-/

structure RadioOpt where
  visible : Bool
  checked : Bool
  checkThrows : Bool
deriving DecidableEq, Repr

/-- The accessible radiogroup: resolves an option by its accessible
label within the group scope. -/
structure RadioGroup where
  optionByLabel : String → Option Nat

/-- A label inside a `bq-radio-button` wrapper; clicking it selects its
associated radio input. -/
structure BqRadioLabel where
  clickThrows : Bool
  clickTarget : Option Nat
deriving DecidableEq, Repr

/-- A `bq-radio-button` component wrapper with a matching group label. -/
structure BqRadio where
  visible : Bool
  optionLabel : String → Option BqRadioLabel

structure RadioPage where
  radios : List RadioOpt
  byRoleRadiogroup : String → Option RadioGroup
  bqRadio : String → Option BqRadio
  byLabelRadio : String → Option Nat

/-- Playwright `check()` on a radio input. -/
def doRadioCheck (r : RadioOpt) : RadioOpt × Option ExecError :=
  if r.checked then (r, none)
  else if r.checkThrows then (r, some ExecError.notActionable)
  else ({ r with checked := true }, none)

def setRadioAt (pg : RadioPage) (i : Nat) (r : RadioOpt) : RadioPage :=
  { pg with radios := pg.radios.set i r }

/-- Radio strategy 1: `getByRole radiogroup` with the group label, resolve
the option by its accessible label inside the group, then check. -/
def radioStrategy1 (pg : RadioPage) (gl t : String) :
    RadioPage × Except ExecError Unit :=
  match pg.byRoleRadiogroup gl with
  | none => (pg, Except.error ExecError.notFound)
  | some g =>
    match g.optionByLabel t with
    | none => (pg, Except.error ExecError.notFound)
    | some i =>
      match nth pg.radios i with
      | none => (pg, Except.error ExecError.notFound)
      | some r =>
        match doRadioCheck r with
        | (r1, none) => (setRadioAt pg i r1, Except.ok ())
        | (_, some e) => (pg, Except.error e)

/-- Radio strategy 2: the `bq-radio-button` wrapper with a matching group
label; wait for it, click the first option label (selects the radio). -/
def radioStrategy2 (pg : RadioPage) (gl t : String) :
    RadioPage × Except ExecError Unit :=
  match pg.bqRadio gl with
  | none => (pg, Except.error ExecError.notFound)
  | some bq =>
    if bq.visible then
      match bq.optionLabel t with
      | none => (pg, Except.error ExecError.notFound)
      | some lab =>
        if lab.clickThrows then (pg, Except.error ExecError.notActionable)
        else
          match lab.clickTarget with
          | none => (pg, Except.ok ())
          | some i =>
            match nth pg.radios i with
            | none => (pg, Except.ok ())
            | some r => (setRadioAt pg i { r with checked := true }, Except.ok ())
    else (pg, Except.error ExecError.notVisible)

/-- Radio strategy 3 (uncaught): `getByLabel` the option text on the whole
page, assert visibility, then check. -/
def radioStrategy3 (pg : RadioPage) (t : String) :
    RadioPage × Except ExecError Unit :=
  match pg.byLabelRadio t with
  | none => (pg, Except.error ExecError.notFound)
  | some i =>
    match nth pg.radios i with
    | none => (pg, Except.error ExecError.notFound)
    | some r =>
      if r.visible then
        match doRadioCheck r with
        | (r1, none) => (setRadioAt pg i r1, Except.ok ())
        | (_, some e) => (pg, Except.error e)
      else (pg, Except.error ExecError.notVisible)

/-- Tail of the radio chain at the final accessible-label fallback. -/
def radioFrom3 (pg : RadioPage) (t : String) :
    RadioPage × Except ExecError Unit × List Strategy :=
  ((radioStrategy3 pg t).1, (radioStrategy3 pg t).2, [Strategy.accessibleLabel])

/-- Tail of the radio chain starting at the component-library strategy. -/
def radioFrom2 (pg : RadioPage) (gl t : String) :
    RadioPage × Except ExecError Unit × List Strategy :=
  match radioStrategy2 pg gl t with
  | (pg2, Except.ok u) => (pg2, Except.ok u, [Strategy.componentLibrary])
  | (pg2, Except.error _) =>
    let t3 := radioFrom3 pg2 t
    (t3.1, t3.2.1, Strategy.componentLibrary :: t3.2.2)

/-- `setRadioByLabel(page, groupLabel, optionText)`: the three-strategy
chain; the accessible-label fallback is the last strategy and its failure
propagates. -/
def setRadioByLabel (pg : RadioPage) (gl t : String) :
    RadioPage × Except ExecError Unit × List Strategy :=
  match radioStrategy1 pg gl t with
  | (pg1, Except.ok u) => (pg1, Except.ok u, [Strategy.accessibleRole])
  | (pg1, Except.error _) =>
    let t2 := radioFrom2 pg1 gl t
    (t2.1, t2.2.1, Strategy.accessibleRole :: t2.2.2)

/-- The select chain trace is one of the three prefixes of its chain. -/
theorem selectMatOptionByLabel_trace (pg : SelByLabelPage) (l t : String) :
    (selectMatOptionByLabel pg l t).2 = [Strategy.accessibleLabel] ∨
    (selectMatOptionByLabel pg l t).2 =
      [Strategy.accessibleLabel, Strategy.componentLibrary] ∨
    (selectMatOptionByLabel pg l t).2 =
      [Strategy.accessibleLabel, Strategy.componentLibrary,
        Strategy.rawDOM] := by
  unfold selectMatOptionByLabel
  cases selByLabelStrategy1 pg l t with
  | ok i => exact Or.inl rfl
  | error e =>
    cases selByLabelStrategy2 pg l t with
    | ok i => exact Or.inr (Or.inl rfl)
    | error e => exact Or.inr (Or.inr rfl)

/-- If the first select strategy succeeds, the chain commits to it. -/
theorem selectMatOptionByLabel_short_circuit (pg : SelByLabelPage)
    (l t : String) (i : Nat) (h : selByLabelStrategy1 pg l t = Except.ok i) :
    selectMatOptionByLabel pg l t =
      (Except.ok i, [Strategy.accessibleLabel]) := by
  unfold selectMatOptionByLabel
  rw [h]

/-- The radio chain trace is one of the three prefixes of its chain: note
its third strategy is the accessible-label fallback, not raw DOM. -/
theorem setRadioByLabel_trace (pg : RadioPage) (gl t : String) :
    (setRadioByLabel pg gl t).2.2 = [Strategy.accessibleRole] ∨
    (setRadioByLabel pg gl t).2.2 =
      [Strategy.accessibleRole, Strategy.componentLibrary] ∨
    (setRadioByLabel pg gl t).2.2 =
      [Strategy.accessibleRole, Strategy.componentLibrary,
        Strategy.accessibleLabel] := by
  have hfrom2 : ∀ pgA : RadioPage,
      (radioFrom2 pgA gl t).2.2 = [Strategy.componentLibrary] ∨
      (radioFrom2 pgA gl t).2.2 =
        [Strategy.componentLibrary, Strategy.accessibleLabel] := by
    intro pgA
    unfold radioFrom2
    cases radioStrategy2 pgA gl t with
    | mk pg2 r2 =>
      cases r2 with
      | ok u => exact Or.inl rfl
      | error e => exact Or.inr rfl
  unfold setRadioByLabel
  cases radioStrategy1 pg gl t with
  | mk pg1 r1 =>
    cases r1 with
    | ok u => exact Or.inl rfl
    | error e =>
      rcases hfrom2 pg1 with h2 | h2
      · exact Or.inr (Or.inl (by simp only []; rw [h2]))
      · exact Or.inr (Or.inr (by simp only []; rw [h2]))

/-- If the radiogroup strategy succeeds, the radio chain commits to it. -/
theorem setRadioByLabel_short_circuit (pg : RadioPage) (gl t : String)
    (pg1 : RadioPage) (h : radioStrategy1 pg gl t = (pg1, Except.ok ())) :
    setRadioByLabel pg gl t = (pg1, Except.ok (), [Strategy.accessibleRole]) := by
  unfold setRadioByLabel
  rw [h]

/-- The trace of the tail from checkbox strategy 4. -/
theorem cbFrom4_trace (pg : CbPage) (l : String) :
    (cbFrom4 pg l).2.2 = [Strategy.rawDOM] := rfl

/-- The trace of the tail from checkbox strategy 3. -/
theorem cbFrom3_trace (pg : CbPage) (l : String) :
    (cbFrom3 pg l).2.2 = [Strategy.componentLibrary] ∨
    (cbFrom3 pg l).2.2 = [Strategy.componentLibrary, Strategy.rawDOM] := by
  unfold cbFrom3
  cases cbStrategy3 pg l with
  | mk pg3 r3 =>
    cases r3 with
    | ok r => exact Or.inl rfl
    | error e => exact Or.inr rfl

/-- The trace of the tail from checkbox strategy 2. -/
theorem cbFrom2_trace (pg : CbPage) (l : String) :
    (cbFrom2 pg l).2.2 = [Strategy.accessibleLabel] ∨
    (cbFrom2 pg l).2.2 = [Strategy.accessibleLabel, Strategy.componentLibrary] ∨
    (cbFrom2 pg l).2.2 =
      [Strategy.accessibleLabel, Strategy.componentLibrary,
        Strategy.rawDOM] := by
  unfold cbFrom2
  cases hs : cbStrategy2 pg l with
  | mk pg2 r2 =>
    cases r2 with
    | ok r => exact Or.inl rfl
    | error e =>
      rcases cbFrom3_trace pg2 l with h3 | h3
      · exact Or.inr (Or.inl (by simp only []; rw [h3]))
      · exact Or.inr (Or.inr (by simp only []; rw [h3]))

/-- The checkbox chain trace is one of the four prefixes of its
four-strategy chain. -/
theorem setCheckboxByLabel_trace (pg : CbPage) (l : String) :
    (setCheckboxByLabel pg l).2.2 = [Strategy.accessibleRole] ∨
    (setCheckboxByLabel pg l).2.2 =
      [Strategy.accessibleRole, Strategy.accessibleLabel] ∨
    (setCheckboxByLabel pg l).2.2 =
      [Strategy.accessibleRole, Strategy.accessibleLabel,
        Strategy.componentLibrary] ∨
    (setCheckboxByLabel pg l).2.2 =
      [Strategy.accessibleRole, Strategy.accessibleLabel,
        Strategy.componentLibrary, Strategy.rawDOM] := by
  unfold setCheckboxByLabel
  cases hs : cbStrategy1 pg l with
  | mk pg1 r1 =>
    cases r1 with
    | ok r => exact Or.inl rfl
    | error e =>
      rcases cbFrom2_trace pg1 l with h2 | h2 | h2
      · exact Or.inr (Or.inl (by simp only []; rw [h2]))
      · exact Or.inr (Or.inr (Or.inl (by simp only []; rw [h2])))
      · exact Or.inr (Or.inr (Or.inr (by simp only []; rw [h2])))

/-- If the role=checkbox strategy succeeds, the checkbox chain commits. -/
theorem setCheckboxByLabel_short_circuit (pg : CbPage) (l : String)
    (pg1 : CbPage) (r : Option Nat)
    (h : cbStrategy1 pg l = (pg1, Except.ok r)) :
    setCheckboxByLabel pg l = (pg1, Except.ok r, [Strategy.accessibleRole]) := by
  unfold setCheckboxByLabel
  rw [h]

/-!
## Concrete pages exercising the chains for the short-circuit claim
-/

/-- A select whose accessible-label trigger resolves and whose option is
found by the role strategy. -/
def demoSelByLabelPage : SelByLabelPage :=
  { opts := demoInListSelPage,
    byLabelTrigger := fun _ => some { clickThrows := false },
    bqSelect := fun _ => none,
    rawSelLabels := fun _ => [],
    byIdTrigger := fun _ => none }

/-- A radio group resolvable by the radiogroup-role strategy. -/
def demoRadioPage : RadioPage :=
  { radios := [{ visible := true, checked := false, checkThrows := false }],
    byRoleRadiogroup := fun _ => some { optionByLabel := fun _ => some 0 },
    bqRadio := fun _ => none,
    byLabelRadio := fun _ => none }

/-- Counterexample to C2 as stated: the chains are not uniformly the three
strategies accessible-role, component-library, raw-DOM.  Exhausting the
text-field chain enters exactly two strategies (accessible-label then
raw-DOM — no component-library strategy exists for text fields), and
exhausting the checkbox chain enters four. -/
theorem claim_C2_counterexample :
    (fillTextByLabel demoHiddenLabelPage "Street" "A").2.2 =
      [Strategy.accessibleLabel, Strategy.rawDOM] ∧
    (fillTextByLabel demoHiddenLabelPage "Street" "A").2.2.length = 2 ∧
    (setCheckboxByLabel demoEmptyCbPage "Terms").2.2 =
      [Strategy.accessibleRole, Strategy.accessibleLabel,
        Strategy.componentLibrary, Strategy.rawDOM] ∧
    (setCheckboxByLabel demoEmptyCbPage "Terms").2.2.length = 4 :=
  ⟨rfl, rfl, rfl, rfl⟩

/-- Claim C2 (amended): each operation tries its own fixed chain in
priority order and commits to the first strategy that succeeds, never
entering a later strategy after a success — but the chains differ by
target kind: text-field tries accessible-label then raw-DOM (two
strategies); select tries accessible-label, component-library, raw-DOM;
radio-group tries accessible-role, component-library, accessible-label;
checkbox tries accessible-role, accessible-label, component-library,
raw-DOM (four strategies). -/
theorem claim_C2_chain :
    (∀ (pg : TextPage) (l v : String),
      (fillTextByLabel pg l v).2.2 = [Strategy.accessibleLabel] ∨
      (fillTextByLabel pg l v).2.2 =
        [Strategy.accessibleLabel, Strategy.rawDOM]) ∧
    (∀ (pg : TextPage) (l v : String) (pg1 : TextPage) (i : Nat),
      fillStrategy1 pg l v = (pg1, Except.ok i) →
      fillTextByLabel pg l v =
        (pg1, Except.ok i, [Strategy.accessibleLabel])) ∧
    (∀ (pg : SelByLabelPage) (l t : String),
      (selectMatOptionByLabel pg l t).2 = [Strategy.accessibleLabel] ∨
      (selectMatOptionByLabel pg l t).2 =
        [Strategy.accessibleLabel, Strategy.componentLibrary] ∨
      (selectMatOptionByLabel pg l t).2 =
        [Strategy.accessibleLabel, Strategy.componentLibrary,
          Strategy.rawDOM]) ∧
    (∀ (pg : SelByLabelPage) (l t : String) (i : Nat),
      selByLabelStrategy1 pg l t = Except.ok i →
      selectMatOptionByLabel pg l t =
        (Except.ok i, [Strategy.accessibleLabel])) ∧
    (∀ (pg : RadioPage) (gl t : String),
      (setRadioByLabel pg gl t).2.2 = [Strategy.accessibleRole] ∨
      (setRadioByLabel pg gl t).2.2 =
        [Strategy.accessibleRole, Strategy.componentLibrary] ∨
      (setRadioByLabel pg gl t).2.2 =
        [Strategy.accessibleRole, Strategy.componentLibrary,
          Strategy.accessibleLabel]) ∧
    (∀ (pg : RadioPage) (gl t : String) (pg1 : RadioPage),
      radioStrategy1 pg gl t = (pg1, Except.ok ()) →
      setRadioByLabel pg gl t =
        (pg1, Except.ok (), [Strategy.accessibleRole])) ∧
    (∀ (pg : CbPage) (l : String),
      (setCheckboxByLabel pg l).2.2 = [Strategy.accessibleRole] ∨
      (setCheckboxByLabel pg l).2.2 =
        [Strategy.accessibleRole, Strategy.accessibleLabel] ∨
      (setCheckboxByLabel pg l).2.2 =
        [Strategy.accessibleRole, Strategy.accessibleLabel,
          Strategy.componentLibrary] ∨
      (setCheckboxByLabel pg l).2.2 =
        [Strategy.accessibleRole, Strategy.accessibleLabel,
          Strategy.componentLibrary, Strategy.rawDOM]) ∧
    (∀ (pg : CbPage) (l : String) (pg1 : CbPage) (r : Option Nat),
      cbStrategy1 pg l = (pg1, Except.ok r) →
      setCheckboxByLabel pg l =
        (pg1, Except.ok r, [Strategy.accessibleRole])) :=
  ⟨fun pg l v => fillTextByLabel_trace pg l v,
   fun pg l v pg1 i h => fillTextByLabel_short_circuit pg l v pg1 i h,
   fun pg l t => selectMatOptionByLabel_trace pg l t,
   fun pg l t i h => selectMatOptionByLabel_short_circuit pg l t i h,
   fun pg gl t => setRadioByLabel_trace pg gl t,
   fun pg gl t pg1 h => setRadioByLabel_short_circuit pg gl t pg1 h,
   fun pg l => setCheckboxByLabel_trace pg l,
   fun pg l pg1 r h => setCheckboxByLabel_short_circuit pg l pg1 r h⟩

/-- Witness for the amended C2: on pages where the first strategy of each
chain succeeds, every chain commits with a singleton trace. -/
theorem claim_C2_chain_witness :
    fillTextByLabel demoTextPage "L" "A" =
      (demoFilled, Except.ok 0, [Strategy.accessibleLabel]) ∧
    selectMatOptionByLabel demoSelByLabelPage "Country" "Slovakia" =
      (Except.ok 0, [Strategy.accessibleLabel]) ∧
    setRadioByLabel demoRadioPage "Sector" "Construction" =
      (setRadioAt demoRadioPage 0
        { visible := true, checked := true, checkThrows := false },
        Except.ok (), [Strategy.accessibleRole]) ∧
    setCheckboxByLabel demoUncheckedCbPage "Terms" =
      (setCbAt demoUncheckedCbPage 0 { checked := true, checkThrows := false },
        Except.ok (some 0), [Strategy.accessibleRole]) :=
  ⟨claim_C2_chain.2.1 demoTextPage "L" "A" demoFilled 0 rfl,
   claim_C2_chain.2.2.2.1 demoSelByLabelPage "Country" "Slovakia" 0 rfl,
   claim_C2_chain.2.2.2.2.2.1 demoRadioPage "Sector" "Construction"
     (setRadioAt demoRadioPage 0
       { visible := true, checked := true, checkThrows := false }) rfl,
   claim_C2_chain.2.2.2.2.2.2.2 demoUncheckedCbPage "Terms"
     (setCbAt demoUncheckedCbPage 0 { checked := true, checkThrows := false })
     (some 0) rfl⟩

/-!
## Proceed buttons: `waitForStableLoad` (src/unnamed wait helpers) and
`clickProceed` (src/utils/elements.ts)

A `Button` records whether it becomes visible and enabled within the 10s
expectation bounds, whether scrolling or the two click techniques throw,
and whether a click has been delivered to it.  `matching` lists the
indices of the `getByRole button` matches in DOM order; the source takes
`.last()`.  `networkIdleThrows` models `waitForLoadState networkidle`
timing out; `stableWaited` records that the stable-wait primitive ran.
-/

structure Button where
  visible10 : Bool
  enabled10 : Bool
  scrollThrows : Bool
  clickThrows : Bool
  domClickThrows : Bool
  clicked : Bool
deriving DecidableEq, Repr

structure BtnPage where
  buttons : List Button
  matching : String → List Nat
  networkIdleThrows : Bool
  stableWaited : Bool

def setBtnAt (pg : BtnPage) (i : Nat) (b : Button) : BtnPage :=
  { pg with buttons := pg.buttons.set i b }

/-- `waitForStableLoad(page)`: wait for network idle (which can time out),
then the fixed settle delay. -/
def waitForStableLoad (pg : BtnPage) : BtnPage × Option ExecError :=
  if pg.networkIdleThrows then (pg, some ExecError.timeout)
  else ({ pg with stableWaited := true }, none)

/-- `clickProceed(page, buttonText)`: take the last matching button,
assert visible and enabled within 10s, scroll into view, click with a
fall-back to the DOM click, then block on the stable wait. -/
def clickProceed (pg : BtnPage) (buttonText : String) :
    BtnPage × Except ExecError Nat :=
  match (pg.matching buttonText).getLast? with
  | none => (pg, Except.error ExecError.notFound)
  | some i =>
    match nth pg.buttons i with
    | none => (pg, Except.error ExecError.notFound)
    | some b =>
      if b.visible10 then
        if b.enabled10 then
          if b.scrollThrows then (pg, Except.error ExecError.notActionable)
          else
            if b.clickThrows && b.domClickThrows then
              (pg, Except.error ExecError.notActionable)
            else
              let pg1 := setBtnAt pg i { b with clicked := true }
              match waitForStableLoad pg1 with
              | (pg2, none) => (pg2, Except.ok i)
              | (pg2, some e) => (pg2, Except.error e)
        else (pg, Except.error ExecError.notActionable)
      else (pg, Except.error ExecError.notVisible)

/-- Claim C5: `clickProceed` resolves the LAST matching button, which must
be visible and enabled within the 10-second bounds; a resolved button that
never becomes enabled is never clicked and the operation throws leaving
the page untouched; if the standard click fails but the direct DOM click
works the operation still succeeds; and every normal return has delivered
a click to the resolved button and completed the stable wait. -/
theorem claim_C5_click_proceed :
    (∀ (pg : BtnPage) (t : String) (pg' : BtnPage) (i : Nat),
      clickProceed pg t = (pg', Except.ok i) →
      (pg.matching t).getLast? = some i ∧
      (∃ b, nth pg.buttons i = some b ∧ b.visible10 = true ∧
        b.enabled10 = true) ∧
      (∃ b', nth pg'.buttons i = some b' ∧ b'.clicked = true) ∧
      pg'.stableWaited = true) ∧
    (∀ (pg : BtnPage) (t : String) (i : Nat) (b : Button),
      (pg.matching t).getLast? = some i →
      nth pg.buttons i = some b →
      b.enabled10 = false →
      clickProceed pg t =
        (pg, Except.error
          (if b.visible10 then ExecError.notActionable
           else ExecError.notVisible))) := by
  constructor
  · intro pg t pg' i h
    unfold clickProceed at h
    cases hlast : (pg.matching t).getLast? with
    | none => simp only [hlast] at h; simp at h
    | some j =>
      simp only [hlast] at h
      cases hget : nth pg.buttons j with
      | none => simp only [hget] at h; simp at h
      | some b =>
        simp only [hget] at h
        obtain ⟨bv, be, bs, bc, bd, bk⟩ := b
        by_cases hv : bv = true
        case neg => simp [hv] at h
        subst hv
        by_cases he : be = true
        case neg => simp [he] at h
        subst he
        by_cases hs : bs = true
        case pos => simp [hs] at h
        replace hs : bs = false := by simpa using hs
        subst hs
        by_cases hcc : (bc && bd) = true
        case pos => simp [hcc] at h
        unfold waitForStableLoad setBtnAt at h
        by_cases hn : pg.networkIdleThrows = true
        case pos => simp [hcc, hn] at h
        simp [hcc, hn] at h
        obtain ⟨hpg, hij⟩ := h
        rw [← hij]
        refine ⟨rfl, ⟨⟨true, true, false, bc, bd, bk⟩, hget, rfl, rfl⟩, ?_, ?_⟩
        · refine ⟨⟨true, true, false, bc, bd, true⟩, ?_, rfl⟩
          rw [← hpg]
          exact nthSetSelf pg.buttons j _ _ hget
        · rw [← hpg]
  · intro pg t i b hlast hget he
    unfold clickProceed
    simp only [hlast, hget]
    by_cases hv : b.visible10
    · simp [hv, he]
    · simp [hv, he]

/-- Witness for C5: a button whose standard click fails but whose DOM
click works is still clicked and the page reaches the stable state; a
button that stays disabled is not clicked and the call throws. -/
def demoFallbackBtnPage : BtnPage :=
  { buttons :=
      [ { visible10 := true, enabled10 := true, scrollThrows := false,
          clickThrows := false, domClickThrows := false, clicked := false },
        { visible10 := true, enabled10 := true, scrollThrows := false,
          clickThrows := true, domClickThrows := false, clicked := false } ],
    matching := fun _ => [0, 1],
    networkIdleThrows := false,
    stableWaited := false }

def demoDisabledBtnPage : BtnPage :=
  { buttons :=
      [ { visible10 := true, enabled10 := false, scrollThrows := false,
          clickThrows := false, domClickThrows := false, clicked := false } ],
    matching := fun _ => [0],
    networkIdleThrows := false,
    stableWaited := false }

theorem claim_C5_click_proceed_witness :
    ((demoFallbackBtnPage.matching "Next").getLast? = some 1 ∧
      (∃ b, nth demoFallbackBtnPage.buttons 1 = some b ∧
        b.visible10 = true ∧ b.enabled10 = true) ∧
      (∃ b', nth ((clickProceed demoFallbackBtnPage "Next").1).buttons 1 =
        some b' ∧ b'.clicked = true) ∧
      ((clickProceed demoFallbackBtnPage "Next").1).stableWaited = true) ∧
    clickProceed demoDisabledBtnPage "Next" =
      (demoDisabledBtnPage, Except.error ExecError.notActionable) :=
  ⟨claim_C5_click_proceed.1 demoFallbackBtnPage "Next"
      ((clickProceed demoFallbackBtnPage "Next").1) 1 rfl,
   claim_C5_click_proceed.2 demoDisabledBtnPage "Next" 0
     { visible10 := true, enabled10 := false, scrollThrows := false,
       clickThrows := false, domClickThrows := false, clicked := false }
     rfl rfl rfl⟩

/-!
## Postal-code lookup: `pdokLookupPostalCode` (src/utils/pdok.ts)

The HTTP layer is the external environment: the function is embedded as a
pure function of the response it received.  `docs` is
`responseData?.response?.docs` (`none` when the path is missing, with
`|| []` applied by the code).  JavaScript truthiness makes an empty-string
field value falsy: both the `||` chain and the `if (postcode)` guard skip
empty strings, which `optTruthy` captures.
-/

structure PdokDoc where
  postcode : Option String
  postalcode : Option String
  pc6 : Option String
deriving DecidableEq, Repr

structure PdokResponse where
  ok : Bool
  status : Nat
  docs : Option (List PdokDoc)
deriving DecidableEq, Repr

/-- JavaScript truthiness of an optional string value. -/
def optTruthy : Option String → Bool
  | none => false
  | some s => if s = "" then false else true

/-- JavaScript `a || b` on optional string values. -/
def jsOr (a b : Option String) : Option String :=
  match a with
  | none => b
  | some s => if s = "" then b else some s

/-- `doc?.postcode || doc?.postalcode || doc?.pc6`. -/
def docPostcode (d : PdokDoc) : Option String :=
  jsOr d.postcode (jsOr d.postalcode d.pc6)

/-- A doc carries a postal code under one of the known field names (a
non-empty value in postcode, postalcode or pc6). -/
def carriesPostcode (d : PdokDoc) : Bool :=
  optTruthy d.postcode || optTruthy d.postalcode || optTruthy d.pc6

/-- The `for (const doc of docs)` loop with its `if (postcode)` truthiness
guard: the first doc whose `||` chain yields a non-empty value wins. -/
def findPostcode : List PdokDoc → Option String
  | [] => none
  | d :: ds =>
    match docPostcode d with
    | some p => if p = "" then findPostcode ds else some p
    | none => findPostcode ds

/-- `pdokLookupPostalCode(request, street, houseNumber, city)` as a
function of the received response: non-success status throws, then the
docs are scanned for the first truthy postcode field, and exhaustion
throws naming the query. -/
def pdokLookupPostalCode (resp : PdokResponse)
    (street houseNumber city : String) : Except String String :=
  if resp.ok = false then
    Except.error ("PDOK request failed with status " ++ toString resp.status)
  else
    match findPostcode (resp.docs.getD []) with
    | some p => Except.ok p
    | none =>
      Except.error ("PDOK: No postcode found for query: " ++
        (street ++ " " ++ houseNumber ++ ", " ++ city))

/-- The truthiness of the `||` chain agrees with carrying a postcode. -/
theorem docPostcode_truthy (d : PdokDoc) :
    optTruthy (docPostcode d) = carriesPostcode d := by
  obtain ⟨p1, p2, p3⟩ := d
  cases p1 with
  | none =>
    cases p2 with
    | none =>
      cases p3 with
      | none => rfl
      | some s3 =>
        by_cases h3 : s3 = "" <;>
          simp [docPostcode, carriesPostcode, jsOr, optTruthy, h3]
    | some s2 =>
      by_cases h2 : s2 = ""
      · cases p3 with
        | none => simp [docPostcode, carriesPostcode, jsOr, optTruthy, h2]
        | some s3 =>
          by_cases h3 : s3 = "" <;>
            simp [docPostcode, carriesPostcode, jsOr, optTruthy, h2, h3]
      · simp [docPostcode, carriesPostcode, jsOr, optTruthy, h2]
  | some s1 =>
    by_cases h1 : s1 = ""
    · cases p2 with
      | none =>
        cases p3 with
        | none => simp [docPostcode, carriesPostcode, jsOr, optTruthy, h1]
        | some s3 =>
          by_cases h3 : s3 = "" <;>
            simp [docPostcode, carriesPostcode, jsOr, optTruthy, h1, h3]
      | some s2 =>
        by_cases h2 : s2 = ""
        · cases p3 with
          | none => simp [docPostcode, carriesPostcode, jsOr, optTruthy, h1, h2]
          | some s3 =>
            by_cases h3 : s3 = "" <;>
              simp [docPostcode, carriesPostcode, jsOr, optTruthy, h1, h2, h3]
        · simp [docPostcode, carriesPostcode, jsOr, optTruthy, h1, h2]
    · simp [docPostcode, carriesPostcode, jsOr, optTruthy, h1]

/-- The loop returns none exactly when no doc carries a postcode. -/
theorem findPostcode_none_iff (ds : List PdokDoc) :
    findPostcode ds = none ↔ ∀ d ∈ ds, carriesPostcode d = false := by
  induction ds with
  | nil => simp [findPostcode]
  | cons d ds ih =>
    unfold findPostcode
    cases hd : docPostcode d with
    | none =>
      have hc : carriesPostcode d = false := by
        rw [← docPostcode_truthy, hd]
        rfl
      simp [ih, hc]
    | some p =>
      by_cases hp : p = ""
      · have hc : carriesPostcode d = false := by
          rw [← docPostcode_truthy, hd]
          simp [optTruthy, hp]
        simp [hp, ih, hc]
      · have hc : carriesPostcode d = true := by
          rw [← docPostcode_truthy, hd]
          simp [optTruthy, hp]
        simp [hp, hc]

/-- A returned postcode comes from some doc in the list and is non-empty. -/
theorem findPostcode_some_mem (ds : List PdokDoc) (p : String)
    (h : findPostcode ds = some p) :
    ∃ d ∈ ds, docPostcode d = some p ∧ p ≠ "" := by
  induction ds with
  | nil => simp [findPostcode] at h
  | cons d ds ih =>
    unfold findPostcode at h
    cases hd : docPostcode d with
    | some q =>
      rw [hd] at h
      by_cases hq : q = ""
      · simp only [hq, if_true] at h
        obtain ⟨d1, hmem, hd1⟩ := ih h
        exact ⟨d1, List.mem_cons_of_mem d hmem, hd1⟩
      · simp only [hq, if_false] at h
        injection h with h
        refine ⟨d, List.mem_cons_self d ds, ?_, ?_⟩
        · rw [hd, h]
        · rw [← h]; exact hq
    | none =>
      rw [hd] at h
      obtain ⟨d1, hmem, hd1⟩ := ih h
      exact ⟨d1, List.mem_cons_of_mem d hmem, hd1⟩

/-- The stub response of the end-to-end scenario. -/
def pdokStubResponse : PdokResponse :=
  { ok := true, status := 200,
    docs := some [{ postcode := none, postalcode := none,
                    pc6 := some "1017GB" }] }

/-- Claim C6: the lookup throws exactly when the response has a
non-success status or no candidate doc carries a postal code under the
known field names postcode/postalcode/pc6; any returned postal code is the
truthy field value of some doc; and the stub
response docs [pc6 1017GB] with street Kerkstraat, house number 12, city
Amsterdam yields 1017GB. -/
theorem claim_C6_pdok :
    (∀ (resp : PdokResponse) (street houseNumber city : String),
      (∃ e, pdokLookupPostalCode resp street houseNumber city =
        Except.error e) ↔
      (resp.ok = false ∨
        ∀ d ∈ resp.docs.getD [], carriesPostcode d = false)) ∧
    (∀ (resp : PdokResponse) (street houseNumber city p : String),
      pdokLookupPostalCode resp street houseNumber city = Except.ok p →
      ∃ d ∈ resp.docs.getD [], docPostcode d = some p ∧ p ≠ "") ∧
    pdokLookupPostalCode pdokStubResponse "Kerkstraat" "12" "Amsterdam" =
      Except.ok "1017GB" := by
  refine ⟨?_, ?_, rfl⟩
  · intro resp street houseNumber city
    unfold pdokLookupPostalCode
    by_cases hok : resp.ok = false
    · simp [hok]
    · simp only [hok, if_false]
      have hok2 : resp.ok = true := by simpa using hok
      cases hf : findPostcode (resp.docs.getD []) with
      | some p =>
        simp only [hok2, Bool.true_eq_false, false_or]
        constructor
        · intro hex
          obtain ⟨e, he⟩ := hex
          simp at he
        · intro hall
          obtain ⟨d1, hmem1, hd1, hp1⟩ := findPostcode_some_mem _ p hf
          have hc1 := hall d1 hmem1
          rw [← docPostcode_truthy, hd1] at hc1
          simp [optTruthy, hp1] at hc1
      | none =>
        simp only [hok2, Bool.true_eq_false, false_or]
        constructor
        · intro _
          exact (findPostcode_none_iff _).mp hf
        · intro _
          exact ⟨_, rfl⟩
  · intro resp street houseNumber city p h
    unfold pdokLookupPostalCode at h
    by_cases hok : resp.ok = false
    · simp [hok] at h
    · simp only [hok, if_false] at h
      cases hf : findPostcode (resp.docs.getD []) with
      | some q =>
        rw [hf] at h
        injection h with h
        rw [← h]
        exact findPostcode_some_mem _ q hf
      | none => rw [hf] at h; simp at h

/-- Witness for C6: the error characterization at a failing status and the
doc-membership of the postcode returned for the stub. -/
theorem claim_C6_pdok_witness :
    (∃ e, pdokLookupPostalCode
      { ok := false, status := 500, docs := none } "A" "1" "B" =
        Except.error e) ∧
    ∃ d ∈ pdokStubResponse.docs.getD [],
      docPostcode d = some "1017GB" ∧ "1017GB" ≠ "" :=
  ⟨(claim_C6_pdok.1 { ok := false, status := 500, docs := none }
      "A" "1" "B").mpr (Or.inl rfl),
   claim_C6_pdok.2.1 pdokStubResponse "Kerkstraat" "12" "Amsterdam"
     "1017GB" rfl⟩

/-!
## Required environment parameters: `requireEnv`
(src/unnamed/part_001 and src/tests/e2e.spec.ts)

The process environment is the external input: `env` maps a variable name
to its value, `none` for an unset variable.  `!value` catches the unset
and empty cases, `!value.trim()` the whitespace-only case.  `jsTrim` is
the structural model of JavaScript trim: strip whitespace from both ends.
-/

/-- Strip leading whitespace characters. -/
def dropLeadingWs : List Char → List Char
  | [] => []
  | c :: cs => if c.isWhitespace then dropLeadingWs cs else c :: cs

/-- JavaScript `String.prototype.trim`: strip whitespace at both ends. -/
def jsTrim (s : String) : String :=
  ⟨List.reverse (dropLeadingWs (List.reverse (dropLeadingWs s.data)))⟩

def requireEnv (env : String → Option String) (name : String) :
    Except String String :=
  match env name with
  | none => Except.error ("Missing required env var: " ++ name)
  | some v =>
    if v = "" then Except.error ("Missing required env var: " ++ name)
    else if jsTrim v = "" then
      Except.error ("Missing required env var: " ++ name)
    else Except.ok (jsTrim v)

/-- Claim C9: `requireEnv` throws an error naming the variable exactly
when the variable is unset, empty, or whitespace-only (its trimmed value
is empty), and otherwise returns the value with leading and trailing
whitespace removed, never the raw value. -/
theorem claim_C9_require_env :
    ∀ (env : String → Option String) (name : String),
      (∀ e, requireEnv env name = Except.error e →
        e = "Missing required env var: " ++ name) ∧
      ((∃ e, requireEnv env name = Except.error e) ↔
        (env name = none ∨ ∃ v, env name = some v ∧ jsTrim v = "")) ∧
      (∀ r, requireEnv env name = Except.ok r →
        ∃ v, env name = some v ∧ r = jsTrim v) := by
  intro env name
  unfold requireEnv
  cases henv : env name with
  | none =>
    refine ⟨?_, ?_, ?_⟩
    · intro e he
      injection he with he
      exact he.symm
    · simp
    · intro r hr
      simp at hr
  | some v =>
    by_cases hv : v = ""
    · subst hv
      refine ⟨?_, ?_, ?_⟩
      · intro e he
        simp only [if_pos rfl] at he
        injection he with he
        exact he.symm
      · simp only [if_pos rfl]
        constructor
        · intro _
          exact Or.inr ⟨"", rfl, by decide⟩
        · intro _
          exact ⟨_, rfl⟩
      · intro r hr
        simp at hr
    · by_cases ht : jsTrim v = ""
      · refine ⟨?_, ?_, ?_⟩
        · intro e he
          simp only [hv, ht, if_true, if_false] at he
          injection he with he
          exact he.symm
        · simp only [hv, ht, if_true, if_false]
          constructor
          · intro _
            exact Or.inr ⟨v, rfl, ht⟩
          · intro _
            exact ⟨_, rfl⟩
        · intro r hr
          simp [hv, ht] at hr
      · refine ⟨?_, ?_, ?_⟩
        · intro e he
          simp [hv, ht] at he
        · simp only [hv, ht, if_false]
          constructor
          · intro hex
            obtain ⟨e, he⟩ := hex
            simp at he
          · intro hor
            rcases hor with hnone | ⟨w, hw, hwt⟩
            · cases hnone
            · injection hw with hw
              rw [← hw] at hwt
              exact absurd hwt ht
        · intro r hr
          simp only [hv, ht, if_false] at hr
          injection hr with hr
          exact ⟨v, rfl, hr.symm⟩

/-- Witness for C9 at a concrete environment: a padded value is returned
trimmed, and a whitespace-only variable is reported missing. -/
theorem claim_C9_require_env_witness :
    (∃ v, (fun (_ : String) => some " ada ") "USER" = some v ∧
      "ada" = jsTrim v) ∧
    ((fun (_ : String) => (some "   " : Option String)) "HOME" = none ∨
      ∃ v, (fun (_ : String) => (some "   " : Option String)) "HOME" =
        some v ∧ jsTrim v = "") :=
  ⟨(claim_C9_require_env (fun _ => some " ada ") "USER").2.2 "ada" rfl,
   ((claim_C9_require_env (fun _ => some "   ") "HOME").2.1).mp
     ⟨"Missing required env var: " ++ "HOME", rfl⟩⟩

/-!
## Date formatting: `formatDateToDutchLocale` (src/tests/e2e.spec.ts)

`dotDate.replace` with a global regex: every dot becomes a dash.
-/

/-- The character substitution of the regex replacement. -/
def dotToDash (c : Char) : Char :=
  if c = '.' then '-' else c

/-- The global scan of `replace` with the g flag. -/
def replaceDots : List Char → List Char
  | [] => []
  | c :: cs => dotToDash c :: replaceDots cs

def formatDateToDutchLocale (s : String) : String :=
  ⟨replaceDots s.data⟩

/-- The global scan is the character-wise map. -/
theorem replaceDots_map (l : List Char) : replaceDots l = l.map dotToDash := by
  induction l with
  | nil => rfl
  | cons c cs ih => simp [replaceDots, ih]

/-- The substitution is idempotent on characters. -/
theorem dotToDash_idem (c : Char) : dotToDash (dotToDash c) = dotToDash c := by
  unfold dotToDash
  by_cases hc : c = '.'
  · simp [hc]
  · simp [hc]

/-- The global scan is idempotent. -/
theorem replaceDots_idem (l : List Char) :
    replaceDots (replaceDots l) = replaceDots l := by
  induction l with
  | nil => rfl
  | cons c cs ih => simp [replaceDots, ih, dotToDash_idem]

/-- The global scan is the identity on dot-free text. -/
theorem replaceDots_no_dot (l : List Char) (h : '.' ∉ l) :
    replaceDots l = l := by
  induction l with
  | nil => rfl
  | cons c cs ih =>
    simp at h
    simp [replaceDots, dotToDash, ih h.2]
    intro hc
    exact (h.1 hc.symm).elim

/-- Claim C10: `formatDateToDutchLocale` replaces EVERY dot by a dash (a
global character-wise replacement, shown on a date with two dots and not
limited to the DD.MM.YYYY shape), is idempotent, and is the identity on
strings with no dot. -/
theorem claim_C10_format_date :
    (∀ s : String,
      (formatDateToDutchLocale s).data = s.data.map dotToDash) ∧
    (∀ s : String,
      formatDateToDutchLocale (formatDateToDutchLocale s) =
        formatDateToDutchLocale s) ∧
    (∀ s : String, '.' ∉ s.data → formatDateToDutchLocale s = s) ∧
    formatDateToDutchLocale "31.12.2025" = "31-12-2025" ∧
    formatDateToDutchLocale "a.b.c.d" = "a-b-c-d" := by
  refine ⟨?_, ?_, ?_, rfl, rfl⟩
  · intro s
    exact replaceDots_map s.data
  · intro s
    unfold formatDateToDutchLocale
    rw [replaceDots_idem]
  · intro s h
    unfold formatDateToDutchLocale
    rw [replaceDots_no_dot s.data h]

/-- Witness for C10 at a dot-free string: the function is the identity. -/
theorem claim_C10_format_date_witness :
    formatDateToDutchLocale "20251231" = "20251231" :=
  claim_C10_format_date.2.2.1 "20251231" (by decide)
